import Mathlib

/-!
# Julia binding generator: `PrintInputProcessing`

A shallow embedding of `src/mlpack/bindings/julia/print_input_processing_impl.hpp`.
The three overloads of `PrintInputProcessing<T>` write Julia source text to
`std::cout`.  The stream is modelled as an explicit state (`Sink`), each
`<<` as an append and `std::endl` as the end of a line.
-/

namespace mlpack.bindings.julia

/-! ## Data model -/

/-- Modelled from the spec: the declaration of `util::ParamData` is not part of
the source file at hand.  The fields are the ones the three overloads read
(`d.name`, `d.required`, `d.cppType`); they correspond to the spec's
`ParameterDescriptor` (`name`, `required`, `underlyingTypeName`). -/
structure ParamData where
  name : String
  cppType : String
  required : Bool
  deriving DecidableEq, Repr

/-- The compile-time facts about the template argument `T` that the overloads
consult: the traits `data::HasSerialize<T>::value`,
`arma::is_arma_type<T>::value`, `std::is_same<typename T::elem_type, size_t>`,
`T::is_row`, `T::is_col`, and the text `GetJuliaType<T>()` (whose definition
lives in `get_julia_type.hpp`, outside the source file, and is therefore a
field here). -/
structure StaticType where
  hasSerialize : Bool
  isArmaType : Bool
  elemIsSizeT : Bool
  is_row : Bool
  is_col : Bool
  juliaType : String
  deriving DecidableEq, Repr

/-- The output stream `std::cout`: the lines already terminated by `std::endl`
(oldest first) and the text written since the last `std::endl`. -/
structure Sink where
  lines : List String
  cur : String
  deriving DecidableEq, Repr

/-- A fresh, empty stream. -/
def Sink.empty : Sink := ⟨[], ""⟩

/-- The effect of `std::cout << t` for a piece of text `t`. -/
def Sink.put (s : Sink) (t : String) : Sink := ⟨s.lines, s.cur ++ t⟩

/-- The effect of `std::cout << std::endl`: the current line is finished. -/
def Sink.endl (s : Sink) : Sink := ⟨s.lines ++ [s.cur], ""⟩

/-- The characters the stream holds: every finished line followed by a newline,
then the unfinished text. -/
def Sink.render (s : Sink) : String :=
  String.join (s.lines.map fun l => l ++ "\n") ++ s.cur

/-! ## The three overloads -/

/-- The overload for a non-serializable type (source lines 21-48). -/
def PrintInputProcessingPlain (T : StaticType) (d : ParamData) (out : Sink) : Sink :=
  if d.required then
    let out := (out.put "  CLISetParam(\"").put d.name
    let out := ((out.put "\", convert(").put T.juliaType).put ", "
    ((out.put d.name).put "))").endl
  else
    let out := (((out.put "  if ").put d.name).put " !== nothing").endl
    let out := (out.put "    CLISetParam(\"").put d.name
    let out := ((out.put "\", convert(").put T.juliaType).put ", "
    let out := ((out.put d.name).put "))").endl
    (out.put "  end").endl

/-- The local `uChar` of the Armadillo overload (source lines 68-69). -/
def uChar (T : StaticType) : String :=
  if T.elemIsSizeT then "U" else ""

/-- The local `matTypeModifier` of the Armadillo overload (source lines 71-75). -/
def matTypeModifier (T : StaticType) : String :=
  if T.is_row then "Row"
  else if T.is_col then "Col"
  else ""

/-- The C++ constructor `std::string(n, ' ')`. -/
def spaces (n : Nat) : String := String.mk (List.replicate n ' ')

/-- The overload for an Armadillo type (source lines 53-86). -/
def PrintInputProcessingArma (T : StaticType) (d : ParamData) (out : Sink) : Sink :=
  let extraIndent : Nat := 0
  let (out, extraIndent) :=
    if !d.required then
      ((((out.put "  if ").put d.name).put " !== nothing").endl, 2)
    else (out, extraIndent)
  let indent := spaces (extraIndent + 2)
  let out := (((out.put indent).put "CLISetParam").put (uChar T)).put (matTypeModifier T)
  let out := (((out.put "(\"").put d.name).put "\", convert(").put T.juliaType
  let out := (((out.put ", ").put d.name).put "))").endl
  if !d.required then
    (out.put "  end").endl
  else out

/-- The overload for a serializable type (source lines 91-115).  `StripType`
is defined in `strip_type.hpp`, outside the source file, and is a parameter. -/
def PrintInputProcessingSerializable (StripType : String → String) (T : StaticType)
    (d : ParamData) (out : Sink) : Sink :=
  let extraIndent : Nat := 0
  let (out, extraIndent) :=
    if !d.required then
      ((((out.put "  if ").put d.name).put " !== nothing").endl, 2)
    else (out, extraIndent)
  let indent := spaces (extraIndent + 2)
  let typeName := StripType d.cppType
  let out := ((((out.put indent).put "CLISetParam").put typeName).put "Ptr(\"").put d.name
  let out := (((((out.put "\", convert(").put T.juliaType).put ", ").put d.name).put "))").endl
  if !d.required then
    (out.put "  end").endl
  else out

/-- The three overloads, as one function of the overload chosen. -/
inductive Overload where
  | plain
  | arma
  | serializable
  deriving DecidableEq, Repr

/-- The `std::enable_if` conditions in the signatures of the three overloads
(source lines 24, 56 and 94-95). -/
def enabled (o : Overload) (T : StaticType) : Bool :=
  match o with
  | .plain => !T.hasSerialize
  | .arma => T.isArmaType
  | .serializable => !T.isArmaType && T.hasSerialize

/-- A call `PrintInputProcessing<T>(d)` resolved to the overload `o`. -/
def PrintInputProcessing (StripType : String → String) (o : Overload) (T : StaticType)
    (d : ParamData) (out : Sink) : Sink :=
  match o with
  | .plain => PrintInputProcessingPlain T d out
  | .arma => PrintInputProcessingArma T d out
  | .serializable => PrintInputProcessingSerializable StripType T d out

/-- Modelled from the spec: the caller's loop over a tool's parameters is not
in the source file; the spec has the caller emit each parameter in declaration
order to the shared stream. -/
def emitAll (StripType : String → String) (ps : List (Overload × StaticType × ParamData))
    (out : Sink) : Sink :=
  ps.foldl (fun acc p => PrintInputProcessing StripType p.1 p.2.1 p.2.2 acc) out

/-! ## Reading the emitted lines -/

/-- The characters of a line after its leading blanks. -/
def dropIndent (l : String) : List Char := l.data.dropWhile (fun c => c == ' ')

/-- The number of leading blanks of a line. -/
def indentOf (l : String) : Nat := (l.data.takeWhile (fun c => c == ' ')).length

/-- A line is a guard opening when, after its indentation, it reads
`if <name> !== nothing` for some text `<name>`. -/
def isGuardOpen (l : String) : Bool :=
  match dropIndent l with
  | 'i' :: 'f' :: ' ' :: rest => " !== nothing".data.isSuffixOf rest
  | _ => false

/-- A line is a block end when, after its indentation, it reads `end`. -/
def isEnd (l : String) : Bool := dropIndent l == "end".data

/-- A line is a store call when, after its indentation, it starts with the
name `CLISetParam`. -/
def isStoreCall (l : String) : Bool := "CLISetParam".data.isPrefixOf (dropIndent l)

/-- Modelled from the spec: the three matrix shapes of the classification
(section 3, `shape ∈ {General, RowVector, ColumnVector}`). -/
inductive Shape where
  | General
  | RowVector
  | ColumnVector
  deriving DecidableEq, Repr

/-- Modelled from the spec: the shape of a matrix-like type (section 4.1):
"RowVector if the container is statically a single-row type, ColumnVector if
statically a single-column type, else General". -/
def shapeOf (T : StaticType) : Shape :=
  if T.is_row then .RowVector
  else if T.is_col then .ColumnVector
  else .General

/-- Removing two leading characters from a line. -/
def deindent (l : String) : String := String.mk (l.data.drop 2)

/-- The property of a sequence of lines that conditional blocks are well formed
and never nested: in every prefix there are at least as many guard openings as
block ends and at most one more, and in the whole sequence as many. -/
def Balanced (ls : List String) : Prop :=
  List.countP isGuardOpen ls = List.countP isEnd ls
  ∧ ∀ n : Nat,
      List.countP isEnd (ls.take n) ≤ List.countP isGuardOpen (ls.take n)
      ∧ List.countP isGuardOpen (ls.take n) ≤ List.countP isEnd (ls.take n) + 1

/-- Each line is of exactly one kind. -/
def OneKind (l : String) : Prop :=
  (isGuardOpen l = true ∧ isEnd l = false ∧ isStoreCall l = false)
  ∨ (isGuardOpen l = false ∧ isEnd l = true ∧ isStoreCall l = false)
  ∨ (isGuardOpen l = false ∧ isEnd l = false ∧ isStoreCall l = true)

/-- The text holds no parenthesis and no double quote. -/
def NoParenQuote (s : String) : Prop :=
  '(' ∉ s.data ∧ ')' ∉ s.data ∧ '"' ∉ s.data

instance : DecidablePred NoParenQuote := fun s => by
  unfold NoParenQuote
  infer_instance

/-- Reading a text from left to right at parenthesis depth `d`: no closing
parenthesis comes without an open one before it, and the depth ends at 0. -/
def nestedFrom : Nat → List Char → Bool
  | d, [] => d == 0
  | d, c :: r =>
    if c = '(' then nestedFrom (d + 1) r
    else if c = ')' then decide (0 < d) && nestedFrom (d - 1) r
    else nestedFrom d r

/-- The parentheses of a line are properly nested and balanced. -/
def parensNested (l : String) : Bool := nestedFrom 0 l.data

/-- The text holds no newline character. -/
def NoNewline (s : String) : Prop := '\n' ∉ s.data

instance : DecidablePred NoNewline := fun s => by
  unfold NoNewline
  infer_instance

/-- The lines of a text: the pieces that the newline characters separate, a
last piece that no newline ends being a line as well. -/
def splitLines : List Char → List (List Char)
  | [] => []
  | c :: cs =>
    if c = '\n' then [] :: splitLines cs
    else
      match splitLines cs with
      | [] => [[c]]
      | l :: ls => (c :: l) :: ls

/-- The lines of the text that the stream holds. -/
def Sink.textLines (s : Sink) : List String := (splitLines s.render.data).map String.mk

/-- The texts that the overload `o` writes for a parameter (its name, the
Julia type text and, for the serializable overload, the stripped type name)
hold no newline character. -/
def NewlineFree (S : String → String) (o : Overload) (T : StaticType) (d : ParamData) : Prop :=
  NoNewline d.name ∧ NoNewline T.juliaType ∧ (o = .serializable → NoNewline (S d.cppType))

/-! ## Basic facts -/

theorem spaces_two : spaces (0 + 2) = "  " := rfl

theorem spaces_four : spaces (2 + 2) = "    " := rfl

theorem plain_required_eq (T : StaticType) (d : ParamData) (out : Sink)
    (h : d.required = true) :
    PrintInputProcessingPlain T d out =
      ⟨out.lines ++ [out.cur ++ "  CLISetParam(\"" ++ d.name ++ "\", convert("
        ++ T.juliaType ++ ", " ++ d.name ++ "))"], ""⟩ := by
  simp [PrintInputProcessingPlain, h, Sink.put, Sink.endl]

theorem plain_optional_eq (T : StaticType) (d : ParamData) (out : Sink)
    (h : d.required = false) :
    PrintInputProcessingPlain T d out =
      ⟨out.lines ++ [out.cur ++ "  if " ++ d.name ++ " !== nothing",
        "    CLISetParam(\"" ++ d.name ++ "\", convert("
          ++ T.juliaType ++ ", " ++ d.name ++ "))",
        "  end"], ""⟩ := by
  simp [PrintInputProcessingPlain, h, Sink.put, Sink.endl]

theorem arma_required_eq (T : StaticType) (d : ParamData) (out : Sink)
    (h : d.required = true) :
    PrintInputProcessingArma T d out =
      ⟨out.lines ++ [out.cur ++ "  " ++ "CLISetParam" ++ uChar T ++ matTypeModifier T
        ++ "(\"" ++ d.name ++ "\", convert(" ++ T.juliaType ++ ", " ++ d.name ++ "))"],
        ""⟩ := by
  simp [PrintInputProcessingArma, h, Sink.put, Sink.endl, spaces_two]

theorem arma_optional_eq (T : StaticType) (d : ParamData) (out : Sink)
    (h : d.required = false) :
    PrintInputProcessingArma T d out =
      ⟨out.lines ++ [out.cur ++ "  if " ++ d.name ++ " !== nothing",
        "    " ++ "CLISetParam" ++ uChar T ++ matTypeModifier T
          ++ "(\"" ++ d.name ++ "\", convert(" ++ T.juliaType ++ ", " ++ d.name ++ "))",
        "  end"], ""⟩ := by
  simp [PrintInputProcessingArma, h, Sink.put, Sink.endl, spaces_four]

theorem serializable_required_eq (S : String → String) (T : StaticType) (d : ParamData)
    (out : Sink) (h : d.required = true) :
    PrintInputProcessingSerializable S T d out =
      ⟨out.lines ++ [out.cur ++ "  " ++ "CLISetParam" ++ S d.cppType ++ "Ptr(\""
        ++ d.name ++ "\", convert(" ++ T.juliaType ++ ", " ++ d.name ++ "))"], ""⟩ := by
  simp [PrintInputProcessingSerializable, h, Sink.put, Sink.endl, spaces_two]

theorem serializable_optional_eq (S : String → String) (T : StaticType) (d : ParamData)
    (out : Sink) (h : d.required = false) :
    PrintInputProcessingSerializable S T d out =
      ⟨out.lines ++ [out.cur ++ "  if " ++ d.name ++ " !== nothing",
        "    " ++ "CLISetParam" ++ S d.cppType ++ "Ptr(\""
          ++ d.name ++ "\", convert(" ++ T.juliaType ++ ", " ++ d.name ++ "))",
        "  end"], ""⟩ := by
  simp [PrintInputProcessingSerializable, h, Sink.put, Sink.endl, spaces_four]

/-! ## Recognising the three kinds of line -/

theorem guard_data (n : String) :
    ("  if " ++ n ++ " !== nothing").data
      = ' ' :: ' ' :: 'i' :: 'f' :: ' ' :: (n.data ++ " !== nothing".data) := by
  simp [String.data_append]

theorem guard_isGuardOpen (n : String) :
    isGuardOpen ("  if " ++ n ++ " !== nothing") = true := by
  simp only [isGuardOpen, dropIndent, guard_data]
  simp [List.dropWhile]

theorem guard_not_isEnd (n : String) :
    isEnd ("  if " ++ n ++ " !== nothing") = false := by
  simp [isEnd, dropIndent, guard_data, List.dropWhile]

theorem guard_not_isStoreCall (n : String) :
    isStoreCall ("  if " ++ n ++ " !== nothing") = false := by
  simp [isStoreCall, dropIndent, guard_data, List.dropWhile, List.isPrefixOf]

theorem guard_indentOf (n : String) :
    indentOf ("  if " ++ n ++ " !== nothing") = 2 := by
  simp [indentOf, guard_data, List.takeWhile]

theorem end_isEnd : isEnd "  end" = true := by decide

theorem end_not_isGuardOpen : isGuardOpen "  end" = false := by decide

theorem end_not_isStoreCall : isStoreCall "  end" = false := by decide

theorem end_indentOf : indentOf "  end" = 2 := by decide

/-- A line made of `k` blanks followed by text starting with `CLISetParam` is a
store call indented by `k`, and neither a guard opening nor a block end. -/
theorem store_shape (l : String) (k : Nat) (r : List Char)
    (h : l.data = List.replicate k ' ' ++ ("CLISetParam".data ++ r)) :
    isStoreCall l = true ∧ isGuardOpen l = false ∧ isEnd l = false ∧ indentOf l = k := by
  have hd : dropIndent l = "CLISetParam".data ++ r := by
    unfold dropIndent
    rw [h]
    induction k with
    | zero => simp [List.dropWhile]
    | succ k ih => simp [List.replicate_succ, List.dropWhile]
  have hi : indentOf l = k := by
    unfold indentOf
    rw [h]
    induction k with
    | zero => simp [List.takeWhile]
    | succ k ih => simp [List.replicate_succ, List.takeWhile]
  refine ⟨?_, ?_, ?_, hi⟩
  · unfold isStoreCall
    rw [hd]
    exact List.isPrefixOf_iff_prefix.mpr (List.prefix_append _ _)
  · simp [isGuardOpen, hd]
  · simp [isEnd, hd]

/-- The store call of the non-serializable overload, at either indentation. -/
theorem plain_store_shape (x t : String) :
    (isStoreCall ("  CLISetParam(\"" ++ x ++ "\", convert(" ++ t ++ ", " ++ x ++ "))") = true
      ∧ isGuardOpen ("  CLISetParam(\"" ++ x ++ "\", convert(" ++ t ++ ", " ++ x ++ "))") = false
      ∧ isEnd ("  CLISetParam(\"" ++ x ++ "\", convert(" ++ t ++ ", " ++ x ++ "))") = false
      ∧ indentOf ("  CLISetParam(\"" ++ x ++ "\", convert(" ++ t ++ ", " ++ x ++ "))") = 2)
    ∧ (isStoreCall ("    CLISetParam(\"" ++ x ++ "\", convert(" ++ t ++ ", " ++ x ++ "))") = true
      ∧ isGuardOpen ("    CLISetParam(\"" ++ x ++ "\", convert(" ++ t ++ ", " ++ x ++ "))") = false
      ∧ isEnd ("    CLISetParam(\"" ++ x ++ "\", convert(" ++ t ++ ", " ++ x ++ "))") = false
      ∧ indentOf ("    CLISetParam(\"" ++ x ++ "\", convert(" ++ t ++ ", " ++ x ++ "))") = 4) := by
  constructor
  · exact store_shape _ 2 ("(\"" ++ x ++ "\", convert(" ++ t ++ ", " ++ x ++ "))").data
      (by simp [String.data_append, List.replicate])
  · exact store_shape _ 4 ("(\"" ++ x ++ "\", convert(" ++ t ++ ", " ++ x ++ "))").data
      (by simp [String.data_append, List.replicate])

/-- Any line `<blanks>CLISetParam<a><b><c>...` built by the Armadillo or the
serializable overload is a store call at the indentation of its blanks. -/
theorem accessor_store_shape (a b x t : String) :
    (isStoreCall ("  " ++ "CLISetParam" ++ a ++ b ++ x ++ "\", convert(" ++ t ++ ", " ++ x ++ "))") = true
      ∧ isGuardOpen ("  " ++ "CLISetParam" ++ a ++ b ++ x ++ "\", convert(" ++ t ++ ", " ++ x ++ "))") = false
      ∧ isEnd ("  " ++ "CLISetParam" ++ a ++ b ++ x ++ "\", convert(" ++ t ++ ", " ++ x ++ "))") = false
      ∧ indentOf ("  " ++ "CLISetParam" ++ a ++ b ++ x ++ "\", convert(" ++ t ++ ", " ++ x ++ "))") = 2)
    ∧ (isStoreCall ("    " ++ "CLISetParam" ++ a ++ b ++ x ++ "\", convert(" ++ t ++ ", " ++ x ++ "))") = true
      ∧ isGuardOpen ("    " ++ "CLISetParam" ++ a ++ b ++ x ++ "\", convert(" ++ t ++ ", " ++ x ++ "))") = false
      ∧ isEnd ("    " ++ "CLISetParam" ++ a ++ b ++ x ++ "\", convert(" ++ t ++ ", " ++ x ++ "))") = false
      ∧ indentOf ("    " ++ "CLISetParam" ++ a ++ b ++ x ++ "\", convert(" ++ t ++ ", " ++ x ++ "))") = 4) := by
  constructor
  · exact store_shape _ 2 (a ++ b ++ x ++ "\", convert(" ++ t ++ ", " ++ x ++ "))").data
      (by simp [String.data_append, List.replicate])
  · exact store_shape _ 4 (a ++ b ++ x ++ "\", convert(" ++ t ++ ", " ++ x ++ "))").data
      (by simp [String.data_append, List.replicate])

/-- For each overload: the one line written for a required parameter, and the
three lines written for an optional one, whose middle line is the required
line moved two columns to the right. -/
theorem required_and_optional_blocks (S : String → String) (o : Overload) (T : StaticType)
    (x cpp : String) :
    ∃ r : String,
      PrintInputProcessing S o T ⟨x, cpp, true⟩ Sink.empty = ⟨[r], ""⟩
      ∧ PrintInputProcessing S o T ⟨x, cpp, false⟩ Sink.empty
          = ⟨["  if " ++ x ++ " !== nothing", "  " ++ r, "  end"], ""⟩
      ∧ (isStoreCall r = true ∧ isGuardOpen r = false ∧ isEnd r = false ∧ indentOf r = 2)
      ∧ (isStoreCall ("  " ++ r) = true ∧ isGuardOpen ("  " ++ r) = false
          ∧ isEnd ("  " ++ r) = false ∧ indentOf ("  " ++ r) = 4) := by
  cases o with
  | plain =>
    have hs : "  " ++ ("  CLISetParam(\"" ++ x ++ "\", convert(" ++ T.juliaType ++ ", " ++ x ++ "))")
        = "    CLISetParam(\"" ++ x ++ "\", convert(" ++ T.juliaType ++ ", " ++ x ++ "))" := by
      apply String.ext
      simp [String.data_append]
    refine ⟨"  CLISetParam(\"" ++ x ++ "\", convert(" ++ T.juliaType ++ ", " ++ x ++ "))",
      ?_, ?_, (plain_store_shape x T.juliaType).1, ?_⟩
    · simp only [PrintInputProcessing]
      rw [plain_required_eq T ⟨x, cpp, true⟩ Sink.empty rfl]
      simp [Sink.empty]
    · simp only [PrintInputProcessing]
      rw [plain_optional_eq T ⟨x, cpp, false⟩ Sink.empty rfl, hs]
      simp [Sink.empty]
    · rw [hs]
      exact (plain_store_shape x T.juliaType).2
  | arma =>
    have hs : "  " ++ ("  " ++ "CLISetParam" ++ uChar T ++ matTypeModifier T ++ "(\"" ++ x
          ++ "\", convert(" ++ T.juliaType ++ ", " ++ x ++ "))")
        = "    " ++ "CLISetParam" ++ uChar T ++ matTypeModifier T ++ "(\"" ++ x
          ++ "\", convert(" ++ T.juliaType ++ ", " ++ x ++ "))" := by
      apply String.ext
      simp [String.data_append]
    have hp := accessor_store_shape (uChar T ++ matTypeModifier T) "(\"" x T.juliaType
    simp only [← String.append_assoc] at hp
    refine ⟨"  " ++ "CLISetParam" ++ uChar T ++ matTypeModifier T ++ "(\"" ++ x
          ++ "\", convert(" ++ T.juliaType ++ ", " ++ x ++ "))", ?_, ?_, hp.1, ?_⟩
    · simp only [PrintInputProcessing]
      rw [arma_required_eq T ⟨x, cpp, true⟩ Sink.empty rfl]
      simp [Sink.empty]
    · simp only [PrintInputProcessing]
      rw [arma_optional_eq T ⟨x, cpp, false⟩ Sink.empty rfl, hs]
      simp [Sink.empty]
    · rw [hs]
      exact hp.2
  | serializable =>
    have hs : "  " ++ ("  " ++ "CLISetParam" ++ S cpp ++ "Ptr(\"" ++ x
          ++ "\", convert(" ++ T.juliaType ++ ", " ++ x ++ "))")
        = "    " ++ "CLISetParam" ++ S cpp ++ "Ptr(\"" ++ x
          ++ "\", convert(" ++ T.juliaType ++ ", " ++ x ++ "))" := by
      apply String.ext
      simp [String.data_append]
    have hp := accessor_store_shape (S cpp) "Ptr(\"" x T.juliaType
    refine ⟨"  " ++ "CLISetParam" ++ S cpp ++ "Ptr(\"" ++ x
          ++ "\", convert(" ++ T.juliaType ++ ", " ++ x ++ "))", ?_, ?_, hp.1, ?_⟩
    · simp only [PrintInputProcessing]
      rw [serializable_required_eq S T ⟨x, cpp, true⟩ Sink.empty rfl]
      simp [Sink.empty]
    · simp only [PrintInputProcessing]
      rw [serializable_optional_eq S T ⟨x, cpp, false⟩ Sink.empty rfl, hs]
      simp [Sink.empty]
    · rw [hs]
      exact hp.2

/-! ## Emission to a stream that already holds finished lines -/

/-- On a stream whose current line is empty, an overload appends the lines it
writes on a fresh stream and leaves the current line empty. -/
theorem emit_appends (S : String → String) (o : Overload) (T : StaticType) (d : ParamData)
    (out : Sink) (h : out.cur = "") :
    PrintInputProcessing S o T d out
      = ⟨out.lines ++ (PrintInputProcessing S o T d Sink.empty).lines, ""⟩ := by
  rcases d with ⟨x, cpp, req⟩
  cases o <;> cases req <;> simp only [PrintInputProcessing]
  · rw [plain_optional_eq T _ out rfl, plain_optional_eq T _ Sink.empty rfl]
    simp [Sink.empty, h]
  · rw [plain_required_eq T _ out rfl, plain_required_eq T _ Sink.empty rfl]
    simp [Sink.empty, h]
  · rw [arma_optional_eq T _ out rfl, arma_optional_eq T _ Sink.empty rfl]
    simp [Sink.empty, h]
  · rw [arma_required_eq T _ out rfl, arma_required_eq T _ Sink.empty rfl]
    simp [Sink.empty, h]
  · rw [serializable_optional_eq S T _ out rfl, serializable_optional_eq S T _ Sink.empty rfl]
    simp [Sink.empty, h]
  · rw [serializable_required_eq S T _ out rfl, serializable_required_eq S T _ Sink.empty rfl]
    simp [Sink.empty, h]

/-- The lines one call writes are a single store call, or a guard opening, a
store call and a block end. -/
theorem block_shape (S : String → String) (o : Overload) (T : StaticType) (d : ParamData) :
    ∃ g s e : String,
      (isGuardOpen g = true ∧ isEnd g = false ∧ isStoreCall g = false)
      ∧ (isGuardOpen s = false ∧ isEnd s = false ∧ isStoreCall s = true)
      ∧ (isGuardOpen e = false ∧ isEnd e = true ∧ isStoreCall e = false)
      ∧ (PrintInputProcessing S o T d Sink.empty).lines
          = if d.required then [s] else [g, s, e] := by
  rcases d with ⟨x, cpp, req⟩
  obtain ⟨r, h1, h2, hr, hr2⟩ := required_and_optional_blocks S o T x cpp
  have hg := And.intro (guard_isGuardOpen x) (And.intro (guard_not_isEnd x) (guard_not_isStoreCall x))
  have he := And.intro end_not_isGuardOpen (And.intro end_isEnd end_not_isStoreCall)
  cases req
  · exact ⟨_, "  " ++ r, _, hg, ⟨hr2.2.1, hr2.2.2.1, hr2.1⟩, he, by rw [h2]; rfl⟩
  · exact ⟨_, r, _, hg, ⟨hr.2.1, hr.2.2.1, hr.1⟩, he, by rw [h1]; rfl⟩

theorem balanced_nil : Balanced [] := by
  simp [Balanced]

theorem balanced_single (s : String) (hs : isGuardOpen s = false) (hs2 : isEnd s = false) :
    Balanced [s] := by
  refine ⟨by simp [List.countP_cons, hs, hs2], ?_⟩
  intro n
  rcases n with _ | n <;> simp [List.countP_cons, hs, hs2]

theorem balanced_triple (g s e : String)
    (hg : isGuardOpen g = true) (hg2 : isEnd g = false)
    (hs : isGuardOpen s = false) (hs2 : isEnd s = false)
    (he : isGuardOpen e = false) (he2 : isEnd e = true) :
    Balanced [g, s, e] := by
  refine ⟨by simp [List.countP_cons, hg, hg2, hs, hs2, he, he2], ?_⟩
  intro n
  rcases n with _ | _ | _ | n <;> simp [List.countP_cons, hg, hg2, hs, hs2, he, he2]

theorem balanced_append (ls b : List String) (h1 : Balanced ls) (h2 : Balanced b) :
    Balanced (ls ++ b) := by
  refine ⟨by rw [List.countP_append, List.countP_append, h1.1, h2.1], ?_⟩
  intro n
  rw [List.take_append_eq_append_take, List.countP_append, List.countP_append]
  by_cases hn : n ≤ ls.length
  · have h0 : n - ls.length = 0 := by omega
    rw [h0]
    simpa using h1.2 n
  · have hl : ls.take n = ls := List.take_of_length_le (by omega)
    rw [hl]
    have := h2.2 (n - ls.length)
    have := h1.1
    omega

theorem block_balanced (S : String → String) (o : Overload) (T : StaticType) (d : ParamData) :
    Balanced (PrintInputProcessing S o T d Sink.empty).lines := by
  obtain ⟨g, s, e, hg, hs, he, h⟩ := block_shape S o T d
  rw [h]
  cases d.required
  · exact balanced_triple g s e hg.1 hg.2.1 hs.1 hs.2.1 he.1 he.2.1
  · exact balanced_single s hs.1 hs.2.1

theorem block_oneKind (S : String → String) (o : Overload) (T : StaticType) (d : ParamData) :
    ∀ l ∈ (PrintInputProcessing S o T d Sink.empty).lines, OneKind l := by
  obtain ⟨g, s, e, hg, hs, he, h⟩ := block_shape S o T d
  rw [h]
  cases d.required <;> intro l hl
  · simp only [Bool.false_eq_true, if_false, List.mem_cons, List.mem_singleton,
      List.not_mem_nil, or_false] at hl
    rcases hl with rfl | rfl | rfl
    · exact Or.inl hg
    · exact Or.inr (Or.inr hs)
    · exact Or.inr (Or.inl he)
  · simp only [if_true, List.mem_singleton] at hl
    subst hl
    exact Or.inr (Or.inr hs)

theorem block_storeCalls (S : String → String) (o : Overload) (T : StaticType) (d : ParamData) :
    List.countP isStoreCall (PrintInputProcessing S o T d Sink.empty).lines = 1 := by
  obtain ⟨g, s, e, hg, hs, he, h⟩ := block_shape S o T d
  rw [h]
  cases d.required <;> simp [List.countP_cons, hg.2.2, hs.2.2, he.2.2]

/-- Emitting a list of parameters keeps the current line empty and keeps the
lines balanced, each of one kind, with one more store call per parameter. -/
theorem emitAll_invariant (S : String → String) (ps : List (Overload × StaticType × ParamData)) :
    ∀ out : Sink, out.cur = "" → Balanced out.lines → (∀ l ∈ out.lines, OneKind l) →
      (emitAll S ps out).cur = ""
      ∧ Balanced (emitAll S ps out).lines
      ∧ (∀ l ∈ (emitAll S ps out).lines, OneKind l)
      ∧ List.countP isStoreCall (emitAll S ps out).lines
          = List.countP isStoreCall out.lines + ps.length := by
  induction ps with
  | nil =>
    intro out h hb hk
    exact ⟨h, hb, hk, by simp [emitAll]⟩
  | cons p ps ih =>
    intro out h hb hk
    have hstep := emit_appends S p.1 p.2.1 p.2.2 out h
    have hcur : (PrintInputProcessing S p.1 p.2.1 p.2.2 out).cur = "" := by rw [hstep]
    have hbal : Balanced (PrintInputProcessing S p.1 p.2.1 p.2.2 out).lines := by
      rw [hstep]
      exact balanced_append _ _ hb (block_balanced S p.1 p.2.1 p.2.2)
    have hkind : ∀ l ∈ (PrintInputProcessing S p.1 p.2.1 p.2.2 out).lines, OneKind l := by
      rw [hstep]
      intro l hl
      rcases List.mem_append.mp hl with hl | hl
      · exact hk l hl
      · exact block_oneKind S p.1 p.2.1 p.2.2 l hl
    have hcount : List.countP isStoreCall (PrintInputProcessing S p.1 p.2.1 p.2.2 out).lines
        = List.countP isStoreCall out.lines + 1 := by
      rw [hstep]
      simp only [List.countP_append, block_storeCalls]
    obtain ⟨r1, r2, r3, r4⟩ := ih _ hcur hbal hkind
    have hunf : emitAll S (p :: ps) out
        = emitAll S ps (PrintInputProcessing S p.1 p.2.1 p.2.2 out) := by
      simp [emitAll]
    rw [hunf]
    refine ⟨r1, r2, r3, ?_⟩
    rw [r4, hcount, List.length_cons]
    omega

/-! ## The stream as characters -/

theorem render_data (s : Sink) :
    s.render.data = ((s.lines.map fun l => l.data ++ ['\n']).flatten) ++ s.cur.data := by
  simp only [Sink.render, String.data_append, String.join_eq, List.map_map]
  congr 2

theorem join_cons (a : String) (l : List String) :
    String.join (a :: l) = a ++ String.join l := by
  apply String.ext
  simp [String.join_eq, String.data_append]

/-- Whatever the stream holds, an overload only adds characters after it. -/
theorem render_emit (S : String → String) (o : Overload) (T : StaticType) (d : ParamData)
    (s : Sink) :
    (PrintInputProcessing S o T d s).render
      = s.render ++ (PrintInputProcessing S o T d Sink.empty).render := by
  rcases d with ⟨x, cpp, req⟩
  apply String.ext
  cases o <;> cases req <;> simp only [PrintInputProcessing]
  · rw [plain_optional_eq T _ s rfl, plain_optional_eq T _ Sink.empty rfl]
    simp [render_data, Sink.empty, String.data_append]
  · rw [plain_required_eq T _ s rfl, plain_required_eq T _ Sink.empty rfl]
    simp [render_data, Sink.empty, String.data_append]
  · rw [arma_optional_eq T _ s rfl, arma_optional_eq T _ Sink.empty rfl]
    simp [render_data, Sink.empty, String.data_append]
  · rw [arma_required_eq T _ s rfl, arma_required_eq T _ Sink.empty rfl]
    simp [render_data, Sink.empty, String.data_append]
  · rw [serializable_optional_eq S T _ s rfl, serializable_optional_eq S T _ Sink.empty rfl]
    simp [render_data, Sink.empty, String.data_append]
  · rw [serializable_required_eq S T _ s rfl, serializable_required_eq S T _ Sink.empty rfl]
    simp [render_data, Sink.empty, String.data_append]

/-- The lines already finished stay where they are. -/
theorem lines_prefix_emit (S : String → String) (o : Overload) (T : StaticType)
    (d : ParamData) (s : Sink) :
    s.lines <+: (PrintInputProcessing S o T d s).lines := by
  rcases d with ⟨x, cpp, req⟩
  cases o <;> cases req <;> simp only [PrintInputProcessing]
  · rw [plain_optional_eq T _ s rfl]
    exact List.prefix_append _ _
  · rw [plain_required_eq T _ s rfl]
    exact List.prefix_append _ _
  · rw [arma_optional_eq T _ s rfl]
    exact List.prefix_append _ _
  · rw [arma_required_eq T _ s rfl]
    exact List.prefix_append _ _
  · rw [serializable_optional_eq S T _ s rfl]
    exact List.prefix_append _ _
  · rw [serializable_required_eq S T _ s rfl]
    exact List.prefix_append _ _

theorem emitAll_cons (S : String → String) (p : Overload × StaticType × ParamData)
    (ps : List (Overload × StaticType × ParamData)) (out : Sink) :
    emitAll S (p :: ps) out = emitAll S ps (PrintInputProcessing S p.1 p.2.1 p.2.2 out) := by
  simp [emitAll]

theorem render_emitAll (S : String → String) (ps : List (Overload × StaticType × ParamData)) :
    ∀ s : Sink, (emitAll S ps s).render
      = s.render ++ String.join
          (ps.map fun p => (PrintInputProcessing S p.1 p.2.1 p.2.2 Sink.empty).render) := by
  induction ps with
  | nil =>
    intro s
    apply String.ext
    simp [emitAll, String.join_eq, String.data_append]
  | cons p ps ih =>
    intro s
    rw [emitAll_cons, ih, render_emit, List.map_cons, join_cons, String.append_assoc]

theorem lines_emitAll (S : String → String) (ps : List (Overload × StaticType × ParamData)) :
    ∀ s : Sink, s.cur = "" → emitAll S ps s
      = ⟨s.lines ++ (ps.map fun p =>
          (PrintInputProcessing S p.1 p.2.1 p.2.2 Sink.empty).lines).flatten, ""⟩ := by
  induction ps with
  | nil =>
    intro s h
    rcases s with ⟨ls, c⟩
    simp only at h
    simp [emitAll, h]
  | cons p ps ih =>
    intro s h
    rw [emitAll_cons, emit_appends S p.1 p.2.1 p.2.2 s h, ih _ rfl]
    simp

/-! ## Accessor names of the Armadillo overload -/

theorem suffix_eq_iff (T U : StaticType) :
    (uChar T ++ matTypeModifier T = uChar U ++ matTypeModifier U)
      ↔ (T.elemIsSizeT = U.elemIsSizeT ∧ shapeOf T = shapeOf U) := by
  rcases T with ⟨hs, ia, u, r, c, j⟩
  rcases U with ⟨hs2, ia2, u2, r2, c2, j2⟩
  cases u <;> cases r <;> cases c <;> cases u2 <;> cases r2 <;> cases c2 <;>
    simp [uChar, matTypeModifier, shapeOf]

/-- A piece of text between equal surroundings is determined by the whole. -/
theorem middle_cancel (a b p r : String) (h : p ++ a ++ r = p ++ b ++ r) : a = b := by
  have hd := congrArg String.data h
  simp only [String.data_append, List.append_assoc, List.append_cancel_left_eq,
    List.append_cancel_right_eq] at hd
  exact String.ext hd

/-- Two Armadillo types with the same Julia type text give the same output for
a parameter exactly when they give the same accessor suffix. -/
theorem arma_emit_eq_iff (T U : StaticType) (x cpp : String) (req : Bool)
    (hj : T.juliaType = U.juliaType) :
    PrintInputProcessingArma T ⟨x, cpp, req⟩ Sink.empty
        = PrintInputProcessingArma U ⟨x, cpp, req⟩ Sink.empty
      ↔ uChar T ++ matTypeModifier T = uChar U ++ matTypeModifier U := by
  have hre : ∀ (ind : String) (V : StaticType),
      ind ++ "CLISetParam" ++ uChar V ++ matTypeModifier V ++ "(\"" ++ x ++ "\", convert("
          ++ V.juliaType ++ ", " ++ x ++ "))"
        = (ind ++ "CLISetParam") ++ (uChar V ++ matTypeModifier V)
          ++ ("(\"" ++ x ++ "\", convert(" ++ V.juliaType ++ ", " ++ x ++ "))") := by
    intro ind V
    simp only [String.append_assoc]
  cases req
  · rw [arma_optional_eq T _ Sink.empty rfl, arma_optional_eq U _ Sink.empty rfl]
    simp only [Sink.empty, String.empty_append, List.nil_append, Sink.mk.injEq,
      List.cons.injEq, and_true, true_and]
    rw [hre "    " T, hre "    " U, hj]
    exact ⟨fun h => middle_cancel _ _ _ _ h, fun h => by rw [h]⟩
  · rw [arma_required_eq T _ Sink.empty rfl, arma_required_eq U _ Sink.empty rfl]
    simp only [Sink.empty, String.empty_append, List.nil_append, Sink.mk.injEq,
      List.cons.injEq, and_true]
    rw [hre "  " T, hre "  " U, hj]
    exact ⟨fun h => middle_cancel _ _ _ _ h, fun h => by rw [h]⟩

/-! ## Parentheses and quotes of a store call -/

theorem nestedFrom_skip (a r : List Char) (h1 : '(' ∉ a) (h2 : ')' ∉ a) :
    ∀ d : Nat, nestedFrom d (a ++ r) = nestedFrom d r := by
  induction a with
  | nil => intro d; rfl
  | cons c a ih =>
    intro d
    have hc1 : c ≠ '(' := fun h => h1 (h ▸ List.mem_cons_self _ _)
    have hc2 : c ≠ ')' := fun h => h2 (h ▸ List.mem_cons_self _ _)
    have ha1 : '(' ∉ a := fun h => h1 (List.mem_cons_of_mem _ h)
    have ha2 : ')' ∉ a := fun h => h2 (List.mem_cons_of_mem _ h)
    simp only [List.cons_append, nestedFrom, hc1, hc2, if_false]
    exact ih ha1 ha2 d

/-- A store call `<p>("<x>", convert(<j>, <x>))` whose pieces hold no
parenthesis and no double quote. -/
theorem store_call_well_formed (p x j : String) (hp : NoParenQuote p) (hx : NoParenQuote x)
    (hj : NoParenQuote j) :
    (p ++ "(\"" ++ x ++ "\", convert(" ++ j ++ ", " ++ x ++ "))").data.count '(' = 2
    ∧ (p ++ "(\"" ++ x ++ "\", convert(" ++ j ++ ", " ++ x ++ "))").data.count ')' = 2
    ∧ (p ++ "(\"" ++ x ++ "\", convert(" ++ j ++ ", " ++ x ++ "))").data.count '"' = 2
    ∧ parensNested (p ++ "(\"" ++ x ++ "\", convert(" ++ j ++ ", " ++ x ++ "))") = true
    ∧ "))".data <:+ (p ++ "(\"" ++ x ++ "\", convert(" ++ j ++ ", " ++ x ++ "))").data := by
  obtain ⟨hp1, hp2, hp3⟩ := hp
  obtain ⟨hx1, hx2, hx3⟩ := hx
  obtain ⟨hj1, hj2, hj3⟩ := hj
  have c1 := List.count_eq_zero.mpr hp1
  have c2 := List.count_eq_zero.mpr hp2
  have c3 := List.count_eq_zero.mpr hp3
  have c4 := List.count_eq_zero.mpr hx1
  have c5 := List.count_eq_zero.mpr hx2
  have c6 := List.count_eq_zero.mpr hx3
  have c7 := List.count_eq_zero.mpr hj1
  have c8 := List.count_eq_zero.mpr hj2
  have c9 := List.count_eq_zero.mpr hj3
  refine ⟨?_, ?_, ?_, ?_, ?_⟩
  · simp [String.data_append, List.count_append, List.count_cons, c1, c4, c7]
  · simp [String.data_append, List.count_append, List.count_cons, c2, c5, c8]
  · simp [String.data_append, List.count_append, List.count_cons, c3, c6, c9]
  · have kp := fun r => nestedFrom_skip p.data r hp1 hp2
    have kx := fun r => nestedFrom_skip x.data r hx1 hx2
    have kj := fun r => nestedFrom_skip j.data r hj1 hj2
    simp [parensNested, String.data_append, nestedFrom, kp, kx, kj]
  · rw [String.data_append]
    exact List.suffix_append _ _

/-- The lines of one call, with the store call split before its opening
parenthesis: the part before holds no parenthesis and no double quote as soon
as the stripped type name holds none. -/
theorem store_line_form (S : String → String) (o : Overload) (T : StaticType)
    (x cpp : String) (req : Bool) (hs : NoParenQuote (S cpp)) :
    ∃ p : String, NoParenQuote p
      ∧ (PrintInputProcessing S o T ⟨x, cpp, req⟩ Sink.empty).lines
          = if req then
              [p ++ "(\"" ++ x ++ "\", convert(" ++ T.juliaType ++ ", " ++ x ++ "))"]
            else
              ["  if " ++ x ++ " !== nothing",
                p ++ "(\"" ++ x ++ "\", convert(" ++ T.juliaType ++ ", " ++ x ++ "))",
                "  end"] := by
  have hsuf : NoParenQuote (uChar T ++ matTypeModifier T) := by
    rcases T with ⟨a, b, u, r, c, j⟩
    cases u <;> cases r <;> cases c <;>
      simp [NoParenQuote, String.data_append, uChar, matTypeModifier]
  obtain ⟨hs1, hs2, hs3⟩ := hs
  obtain ⟨hu1, hu2, hu3⟩ := hsuf
  simp only [String.data_append, List.mem_append, not_or] at hu1 hu2 hu3
  cases o <;> cases req <;> simp only [PrintInputProcessing]
  · refine ⟨"    CLISetParam", by decide, ?_⟩
    rw [plain_optional_eq T _ Sink.empty rfl]
    simp [Sink.empty]
  · refine ⟨"  CLISetParam", by decide, ?_⟩
    rw [plain_required_eq T _ Sink.empty rfl]
    simp [Sink.empty]
  · refine ⟨"    " ++ "CLISetParam" ++ uChar T ++ matTypeModifier T, ?_, ?_⟩
    · simp [NoParenQuote, String.data_append, hu1, hu2, hu3]
    · rw [arma_optional_eq T _ Sink.empty rfl]
      simp [Sink.empty]
  · refine ⟨"  " ++ "CLISetParam" ++ uChar T ++ matTypeModifier T, ?_, ?_⟩
    · simp [NoParenQuote, String.data_append, hu1, hu2, hu3]
    · rw [arma_required_eq T _ Sink.empty rfl]
      simp [Sink.empty]
  · refine ⟨"    " ++ "CLISetParam" ++ S cpp ++ "Ptr", ?_, ?_⟩
    · simp [NoParenQuote, String.data_append, hs1, hs2, hs3]
    · rw [serializable_optional_eq S T _ Sink.empty rfl]
      simp only [Sink.empty, String.empty_append, List.nil_append, Bool.false_eq_true,
        if_false, List.cons.injEq, and_true, true_and]
      apply String.ext
      simp [String.data_append]
  · refine ⟨"  " ++ "CLISetParam" ++ S cpp ++ "Ptr", ?_, ?_⟩
    · simp [NoParenQuote, String.data_append, hs1, hs2, hs3]
    · rw [serializable_required_eq S T _ Sink.empty rfl]
      simp only [Sink.empty, String.empty_append, List.nil_append, if_true,
        List.cons.injEq, and_true]
      apply String.ext
      simp [String.data_append]

/-! ## Lines of the text and pieces ended by `std::endl` -/

theorem splitLines_line (l rest : List Char) (h : '\n' ∉ l) :
    splitLines (l ++ '\n' :: rest) = l :: splitLines rest := by
  induction l with
  | nil => simp [splitLines]
  | cons c l ih =>
    have hc : c ≠ '\n' := fun e => h (e ▸ List.mem_cons_self _ _)
    have hl : '\n' ∉ l := fun e => h (List.mem_cons_of_mem _ e)
    show splitLines (c :: (l ++ '\n' :: rest)) = (c :: l) :: splitLines rest
    rw [splitLines]
    simp only [hc, if_false]
    rw [ih hl]

theorem splitLines_pieces (ls : List String) (h : ∀ l ∈ ls, NoNewline l) :
    splitLines ((ls.map fun l => l.data ++ ['\n']).flatten) = ls.map String.data := by
  induction ls with
  | nil => simp [splitLines]
  | cons a ls ih =>
    have ha : '\n' ∉ a.data := h a (List.mem_cons_self _ _)
    have hr : ∀ l ∈ ls, NoNewline l := fun l hl => h l (List.mem_cons_of_mem _ hl)
    simp only [List.map_cons, List.flatten_cons, List.append_assoc, List.singleton_append]
    rw [splitLines_line _ _ ha, ih hr]

/-- When no piece holds a newline, the lines of the text are the pieces. -/
theorem textLines_of_pieces (ls : List String) (h : ∀ l ∈ ls, NoNewline l) :
    (Sink.mk ls "").textLines = ls := by
  unfold Sink.textLines
  rw [render_data]
  simp only [List.append_nil, show ("" : String).data = [] from rfl]
  rw [splitLines_pieces ls h, List.map_map]
  have hid : (String.mk ∘ String.data) = id := funext fun l => rfl
  rw [hid, List.map_id]

theorem textLines_of_cur_empty (s : Sink) (hc : s.cur = "") (h : ∀ l ∈ s.lines, NoNewline l) :
    s.textLines = s.lines := by
  rcases s with ⟨ls, c⟩
  simp only at hc
  subst hc
  exact textLines_of_pieces ls h

theorem suffix_noNewline (T : StaticType) : NoNewline (uChar T ++ matTypeModifier T) := by
  rcases T with ⟨a, b, u, r, c, j⟩
  cases u <;> cases r <;> cases c <;>
    simp [NoNewline, String.data_append, uChar, matTypeModifier]

/-- The pieces one call writes hold no newline when the texts it is given hold
none. -/
theorem block_noNewline (S : String → String) (o : Overload) (T : StaticType) (d : ParamData)
    (h : NewlineFree S o T d) :
    ∀ l ∈ (PrintInputProcessing S o T d Sink.empty).lines, NoNewline l := by
  rcases d with ⟨x, cpp, req⟩
  obtain ⟨hx, ht, hs⟩ := h
  have hu := suffix_noNewline T
  simp only [NoNewline, String.data_append, List.mem_append, not_or] at hx ht hs hu
  cases o <;> cases req <;> simp only [PrintInputProcessing]
  · rw [plain_optional_eq T _ Sink.empty rfl]
    simp [Sink.empty, NoNewline, String.data_append, hx, ht]
  · rw [plain_required_eq T _ Sink.empty rfl]
    simp [Sink.empty, NoNewline, String.data_append, hx, ht]
  · rw [arma_optional_eq T _ Sink.empty rfl]
    simp [Sink.empty, NoNewline, String.data_append, hx, ht, hu]
  · rw [arma_required_eq T _ Sink.empty rfl]
    simp [Sink.empty, NoNewline, String.data_append, hx, ht, hu]
  · rw [serializable_optional_eq S T _ Sink.empty rfl]
    simp [Sink.empty, NoNewline, String.data_append, hx, ht, hs rfl]
  · rw [serializable_required_eq S T _ Sink.empty rfl]
    simp [Sink.empty, NoNewline, String.data_append, hx, ht, hs rfl]

/-- For newline-free texts the lines of what one call writes are the pieces it
ends with `std::endl`. -/
theorem textLines_emit (S : String → String) (o : Overload) (T : StaticType) (d : ParamData)
    (h : NewlineFree S o T d) :
    (PrintInputProcessing S o T d Sink.empty).textLines
      = (PrintInputProcessing S o T d Sink.empty).lines := by
  have hc : (PrintInputProcessing S o T d Sink.empty).cur = "" := by
    rw [emit_appends S o T d Sink.empty rfl]
  exact textLines_of_cur_empty _ hc (block_noNewline S o T d h)

/-- The same for a list of parameters. -/
theorem textLines_emitAll (S : String → String) (ps : List (Overload × StaticType × ParamData))
    (h : ∀ p ∈ ps, NewlineFree S p.1 p.2.1 p.2.2) :
    (emitAll S ps Sink.empty).textLines = (emitAll S ps Sink.empty).lines := by
  have he := lines_emitAll S ps Sink.empty rfl
  have hc : (emitAll S ps Sink.empty).cur = "" := by rw [he]
  apply textLines_of_cur_empty _ hc
  intro l hl
  rw [he] at hl
  simp only [Sink.empty, List.nil_append, List.mem_flatten, List.mem_map] at hl
  obtain ⟨b, ⟨p, hp, rfl⟩, hlb⟩ := hl
  exact block_noNewline S p.1 p.2.1 p.2.2 (h p hp) l hlb

/-! ## The pieces ended by `std::endl` -/

/-- The non-serializable overload called with `required = true` ends exactly one
piece with `std::endl`, `  CLISetParam("x", convert(T, x))`, whatever the texts
hold; that piece is neither a guard opening nor a block end. -/
theorem plain_required_pieces (T : StaticType) (x cpp : String) :
    PrintInputProcessingPlain T ⟨x, cpp, true⟩ Sink.empty
        = ⟨["  CLISetParam(\"" ++ x ++ "\", convert(" ++ T.juliaType ++ ", " ++ x ++ "))"], ""⟩
      ∧ indentOf ("  CLISetParam(\"" ++ x ++ "\", convert(" ++ T.juliaType ++ ", " ++ x ++ "))") = 2
      ∧ (∀ l ∈ (PrintInputProcessingPlain T ⟨x, cpp, true⟩ Sink.empty).lines,
          isGuardOpen l = false ∧ isEnd l = false) := by
  have hp := (plain_store_shape x T.juliaType).1
  have he : PrintInputProcessingPlain T ⟨x, cpp, true⟩ Sink.empty
        = ⟨["  CLISetParam(\"" ++ x ++ "\", convert(" ++ T.juliaType ++ ", " ++ x ++ "))"],
            ""⟩ := by
    rw [plain_required_eq T ⟨x, cpp, true⟩ Sink.empty rfl]
    simp [Sink.empty]
  refine ⟨he, hp.2.2.2, ?_⟩
  intro l hl
  rw [he] at hl
  simp only [List.mem_singleton] at hl
  subst hl
  exact ⟨hp.2.1, hp.2.2.1⟩

/-- For each overload the pieces ended by `std::endl` for an optional parameter
are the guard, two blanks followed by the piece written for a required
parameter, and `  end`. -/
theorem optional_pieces_wrap_required (S : String → String) (o : Overload)
    (T : StaticType) (x cpp : String) :
    (∃ r : String,
      PrintInputProcessing S o T ⟨x, cpp, true⟩ Sink.empty = ⟨[r], ""⟩
      ∧ PrintInputProcessing S o T ⟨x, cpp, false⟩ Sink.empty
          = ⟨["  if " ++ x ++ " !== nothing", "  " ++ r, "  end"], ""⟩
      ∧ deindent ("  " ++ r) = r
      ∧ indentOf r = indentOf ("  if " ++ x ++ " !== nothing"))
    ∧ ((PrintInputProcessing S o T ⟨x, cpp, false⟩ Sink.empty).lines.tail.dropLast).map deindent
        = (PrintInputProcessing S o T ⟨x, cpp, true⟩ Sink.empty).lines
    ∧ isGuardOpen ("  if " ++ x ++ " !== nothing") = true
    ∧ isEnd "  end" = true
    ∧ indentOf "  end" = indentOf ("  if " ++ x ++ " !== nothing") := by
  obtain ⟨r, h1, h2, hr, _⟩ := required_and_optional_blocks S o T x cpp
  have hd : deindent ("  " ++ r) = r := by
    apply String.ext
    simp [deindent, String.data_append]
  refine ⟨⟨r, h1, h2, hd, ?_⟩, ?_, guard_isGuardOpen x, end_isEnd, ?_⟩
  · rw [hr.2.2.2, guard_indentOf]
  · rw [h1, h2]
    simp [hd]
  · rw [end_indentOf, guard_indentOf]

/-- Among the pieces ended by `std::endl` a guard opening occurs exactly when
`required` is false: one piece when required, three when optional. -/
theorem guard_piece_iff_not_required (S : String → String) (o : Overload) (T : StaticType)
    (x cpp : String) :
    (∃ s : String,
        PrintInputProcessing S o T ⟨x, cpp, true⟩ Sink.empty = ⟨[s], ""⟩
        ∧ isGuardOpen s = false ∧ isEnd s = false)
    ∧ (∃ s : String,
        PrintInputProcessing S o T ⟨x, cpp, false⟩ Sink.empty
          = ⟨["  if " ++ x ++ " !== nothing", s, "  end"], ""⟩
        ∧ isGuardOpen s = false ∧ isEnd s = false)
    ∧ isGuardOpen ("  if " ++ x ++ " !== nothing") = true
    ∧ isEnd "  end" = true
    ∧ (∀ req : Bool,
        ((∃ l ∈ (PrintInputProcessing S o T ⟨x, cpp, req⟩ Sink.empty).lines,
            isGuardOpen l = true) ↔ req = false)
        ∧ (PrintInputProcessing S o T ⟨x, cpp, req⟩ Sink.empty).lines.length
            = (if req then 1 else 3)
        ∧ 1 ≤ (PrintInputProcessing S o T ⟨x, cpp, req⟩ Sink.empty).lines.length
        ∧ (PrintInputProcessing S o T ⟨x, cpp, req⟩ Sink.empty).lines.length ≤ 4)
    ∧ (∀ (o2 : Overload) (T2 : StaticType) (cpp2 : String),
        (PrintInputProcessing S o2 T2 ⟨x, cpp2, false⟩ Sink.empty).lines.head?
            = (PrintInputProcessing S o T ⟨x, cpp, false⟩ Sink.empty).lines.head?
        ∧ (PrintInputProcessing S o2 T2 ⟨x, cpp2, false⟩ Sink.empty).lines.getLast?
            = (PrintInputProcessing S o T ⟨x, cpp, false⟩ Sink.empty).lines.getLast?) := by
  obtain ⟨r, h1, h2, hr, hr2⟩ := required_and_optional_blocks S o T x cpp
  refine ⟨⟨r, h1, hr.2.1, hr.2.2.1⟩, ⟨"  " ++ r, h2, hr2.2.1, hr2.2.2.1⟩,
    guard_isGuardOpen x, end_isEnd, ?_, ?_⟩
  · intro req
    cases req
    · rw [h2]
      refine ⟨⟨fun _ => rfl, fun _ => ⟨_, List.mem_cons_self _ _, guard_isGuardOpen x⟩⟩, ?_⟩
      simp
    · rw [h1]
      refine ⟨⟨?_, fun h => by cases h⟩, by simp⟩
      rintro ⟨l, hl, hg⟩
      simp only [List.mem_singleton] at hl
      subst hl
      rw [hr.2.1] at hg
      cases hg
  · intro o2 T2 cpp2
    obtain ⟨r', -, h2', -, -⟩ := required_and_optional_blocks S o2 T2 x cpp2
    rw [h2, h2']
    simp

/-- The pieces ended by `std::endl` for a list of parameters: as many guard
openings as block ends, never more than one block open, every piece of exactly
one kind, one store call per parameter. -/
theorem pieces_balanced (S : String → String)
    (ps : List (Overload × StaticType × ParamData)) :
    List.countP isGuardOpen (emitAll S ps Sink.empty).lines
        = List.countP isEnd (emitAll S ps Sink.empty).lines
    ∧ (∀ n : Nat,
        List.countP isEnd ((emitAll S ps Sink.empty).lines.take n)
            ≤ List.countP isGuardOpen ((emitAll S ps Sink.empty).lines.take n)
        ∧ List.countP isGuardOpen ((emitAll S ps Sink.empty).lines.take n)
            ≤ List.countP isEnd ((emitAll S ps Sink.empty).lines.take n) + 1)
    ∧ (∀ l ∈ (emitAll S ps Sink.empty).lines,
        isStoreCall l = true → isGuardOpen l = false ∧ isEnd l = false)
    ∧ (∀ l ∈ (emitAll S ps Sink.empty).lines,
        isGuardOpen l = true ∨ isEnd l = true ∨ isStoreCall l = true)
    ∧ List.countP isStoreCall (emitAll S ps Sink.empty).lines = ps.length := by
  obtain ⟨-, hb, hk, hc⟩ := emitAll_invariant S ps Sink.empty rfl balanced_nil
    (by intro l hl; cases hl)
  refine ⟨hb.1, hb.2, ?_, ?_, ?_⟩
  · intro l hl hs
    rcases hk l hl with h | h | h
    · rw [h.2.2] at hs
      cases hs
    · rw [h.2.2] at hs
      cases hs
    · exact ⟨h.1, h.2.1⟩
  · intro l hl
    rcases hk l hl with h | h | h
    · exact Or.inl h.1
    · exact Or.inr (Or.inl h.2.1)
    · exact Or.inr (Or.inr h.2.2)
  · rw [hc]
    simp [Sink.empty]

/-- The store-call piece ended by `std::endl`, when name, Julia type text and
stripped type name hold no parenthesis and no double quote: two opening and
two closing parentheses, properly nested, and two double quotes around the
name. -/
theorem store_piece_parentheses_and_quotes (S : String → String) (o : Overload)
    (T : StaticType) (x cpp : String) (req : Bool)
    (hx : NoParenQuote x) (ht : NoParenQuote T.juliaType) (hs : NoParenQuote (S cpp)) :
    List.countP isStoreCall (PrintInputProcessing S o T ⟨x, cpp, req⟩ Sink.empty).lines = 1
    ∧ ∀ l ∈ (PrintInputProcessing S o T ⟨x, cpp, req⟩ Sink.empty).lines,
        isStoreCall l = true →
          l.data.count '(' = 2
          ∧ l.data.count ')' = 2
          ∧ parensNested l = true
          ∧ "))".data <:+ l.data
          ∧ l.data.count '"' = 2
          ∧ ∃ pre : String, '"' ∉ pre.data
              ∧ l = pre ++ "\"" ++ x ++ "\"" ++ ", convert(" ++ T.juliaType ++ ", " ++ x
                  ++ "))" := by
  refine ⟨block_storeCalls S o T ⟨x, cpp, req⟩, ?_⟩
  obtain ⟨p, hp, hl⟩ := store_line_form S o T x cpp req hs
  obtain ⟨w1, w2, w3, w4, w5⟩ := store_call_well_formed p x T.juliaType hp hx ht
  have hpre : '"' ∉ (p ++ "(").data := by
    simp [String.data_append, hp.2.2]
  have hsplit : p ++ "(\"" ++ x ++ "\", convert(" ++ T.juliaType ++ ", " ++ x ++ "))"
      = (p ++ "(") ++ "\"" ++ x ++ "\"" ++ ", convert(" ++ T.juliaType ++ ", " ++ x
          ++ "))" := by
    apply String.ext
    simp [String.data_append]
  have main : ∀ l : String,
      l = p ++ "(\"" ++ x ++ "\", convert(" ++ T.juliaType ++ ", " ++ x ++ "))" →
        l.data.count '(' = 2 ∧ l.data.count ')' = 2 ∧ parensNested l = true
          ∧ "))".data <:+ l.data ∧ l.data.count '"' = 2
          ∧ ∃ pre : String, '"' ∉ pre.data
              ∧ l = pre ++ "\"" ++ x ++ "\"" ++ ", convert(" ++ T.juliaType ++ ", " ++ x
                  ++ "))" := by
    intro l h
    subst h
    exact ⟨w1, w2, w4, w5, w3, p ++ "(", hpre, hsplit⟩
  rw [hl]
  cases req <;> intro l hm hsc
  · simp only [Bool.false_eq_true, if_false, List.mem_cons, List.mem_singleton,
      List.not_mem_nil, or_false] at hm
    rcases hm with h | h | h
    · rw [h, guard_not_isStoreCall] at hsc
      cases hsc
    · exact main l h
    · rw [h, end_not_isStoreCall] at hsc
      cases hsc
  · simp only [if_true, List.mem_singleton] at hm
    exact main l hm

/-! ## The claims -/

/-- C1, as stated, fails: the name is written as it is, so for the required
non-serializable parameter whose name is `a`, a newline, `  end`, a newline,
the text written has five lines, two of which are `end` lines. -/
theorem C1_newline_in_name_gives_five_lines :
    (PrintInputProcessingPlain ⟨false, false, false, false, false, "Int"⟩
        ⟨"a\n  end\n", "int", true⟩ Sink.empty).textLines
      = ["  CLISetParam(\"a", "  end", "\", convert(Int, a", "  end", "))"]
    ∧ (PrintInputProcessingPlain ⟨false, false, false, false, false, "Int"⟩
        ⟨"a\n  end\n", "int", true⟩ Sink.empty).textLines.length ≠ 1
    ∧ List.countP isEnd (PrintInputProcessingPlain ⟨false, false, false, false, false, "Int"⟩
        ⟨"a\n  end\n", "int", true⟩ Sink.empty).textLines = 2 := by
  decide

/-- C1, amended: for every parameter name `x` and Julia type text that hold no
newline character, the non-serializable (Plain) overload called with
`required = true` writes a text of exactly one line,
`  CLISetParam("x", convert(T, x))`: two blanks of indentation, then the store
call with `x` quoted once and unquoted once.  No line of the text is an
`if ... !== nothing` line or an `end` line. -/
theorem C1_plain_required_single_line (T : StaticType) (x cpp : String)
    (hx : NoNewline x) (ht : NoNewline T.juliaType) :
    (PrintInputProcessingPlain T ⟨x, cpp, true⟩ Sink.empty).textLines
        = ["  CLISetParam(\"" ++ x ++ "\", convert(" ++ T.juliaType ++ ", " ++ x ++ "))"]
    ∧ (PrintInputProcessingPlain T ⟨x, cpp, true⟩ Sink.empty).render
        = "  CLISetParam(\"" ++ x ++ "\", convert(" ++ T.juliaType ++ ", " ++ x ++ "))" ++ "\n"
    ∧ indentOf ("  CLISetParam(\"" ++ x ++ "\", convert(" ++ T.juliaType ++ ", " ++ x ++ "))") = 2
    ∧ (∀ l ∈ (PrintInputProcessingPlain T ⟨x, cpp, true⟩ Sink.empty).textLines,
          isGuardOpen l = false ∧ isEnd l = false) := by
  obtain ⟨he, hi, hk⟩ := plain_required_pieces T x cpp
  have ht : (PrintInputProcessingPlain T ⟨x, cpp, true⟩ Sink.empty).textLines
      = (PrintInputProcessingPlain T ⟨x, cpp, true⟩ Sink.empty).lines :=
    textLines_emit (fun c => c) .plain T ⟨x, cpp, true⟩ ⟨hx, ht, fun h => by cases h⟩
  refine ⟨?_, ?_, hi, ?_⟩
  · rw [ht, he]
  · rw [he]
    apply String.ext
    simp [render_data, String.data_append]
  · rw [ht]
    exact hk

/-- Witness for C1 (amended): the parameter `verbose` of Julia type `Bool`. -/
theorem C1_plain_required_single_line_witness :
    NoNewline "verbose"
    ∧ NoNewline (StaticType.mk false false false false false "Bool").juliaType
    ∧ (PrintInputProcessingPlain ⟨false, false, false, false, false, "Bool"⟩
        ⟨"verbose", "bool", true⟩ Sink.empty).textLines
      = ["  CLISetParam(\"" ++ "verbose" ++ "\", convert("
          ++ (StaticType.mk false false false false false "Bool").juliaType
          ++ ", " ++ "verbose" ++ "))"] :=
  ⟨by decide, by decide,
    (C1_plain_required_single_line ⟨false, false, false, false, false, "Bool"⟩
      "verbose" "bool" (by decide) (by decide)).1⟩

/-- C2, as stated, fails: for the optional Armadillo parameter whose name is
`a`, a newline, `  end`, a newline, the text written has nine lines, not
three, and none of them is a guard `if <name> !== nothing`. -/
theorem C2_newline_in_name_gives_nine_lines :
    (PrintInputProcessing (fun c => c) .arma ⟨true, true, false, false, false, "Mat"⟩
        ⟨"a\n  end\n", "arma::mat", false⟩ Sink.empty).textLines
      = ["  if a", "  end", " !== nothing", "    CLISetParam(\"a", "  end",
          "\", convert(Mat, a", "  end", "))", "  end"]
    ∧ (PrintInputProcessing (fun c => c) .arma ⟨true, true, false, false, false, "Mat"⟩
        ⟨"a\n  end\n", "arma::mat", false⟩ Sink.empty).textLines.length ≠ 3
    ∧ List.countP isGuardOpen
        (PrintInputProcessing (fun c => c) .arma ⟨true, true, false, false, false, "Mat"⟩
          ⟨"a\n  end\n", "arma::mat", false⟩ Sink.empty).textLines = 0 := by
  decide

/-- C2, amended: for each of the three overloads and every parameter whose
name, Julia type text and (for the serializable overload) stripped type name
hold no newline character, the text written with `required = false` is the
three lines `[g, s, e]`: `g` the guard `if <name> !== nothing`, `e` the line
`end` at the indentation of `g`, and `s` two blanks followed by the single line
`r` of the text written with `required = true`.  Dropping `g` and `e` and
removing two leading blanks gives back the required-case text, and `r` sits at
the indentation of `g`. -/
theorem C2_optional_text_wraps_required_line (S : String → String) (o : Overload)
    (T : StaticType) (x cpp : String)
    (hx : NoNewline x) (ht : NoNewline T.juliaType)
    (hs : o = .serializable → NoNewline (S cpp)) :
    (∃ r : String,
      (PrintInputProcessing S o T ⟨x, cpp, true⟩ Sink.empty).textLines = [r]
      ∧ (PrintInputProcessing S o T ⟨x, cpp, false⟩ Sink.empty).textLines
          = ["  if " ++ x ++ " !== nothing", "  " ++ r, "  end"]
      ∧ deindent ("  " ++ r) = r
      ∧ indentOf r = indentOf ("  if " ++ x ++ " !== nothing"))
    ∧ ((PrintInputProcessing S o T ⟨x, cpp, false⟩ Sink.empty).textLines.tail.dropLast).map
          deindent
        = (PrintInputProcessing S o T ⟨x, cpp, true⟩ Sink.empty).textLines
    ∧ isGuardOpen ("  if " ++ x ++ " !== nothing") = true
    ∧ isEnd "  end" = true
    ∧ indentOf "  end" = indentOf ("  if " ++ x ++ " !== nothing") := by
  obtain ⟨⟨r, h1, h2, hd, hi⟩, hm, hg, he, hie⟩ := optional_pieces_wrap_required S o T x cpp
  have t1 := textLines_emit S o T ⟨x, cpp, true⟩ ⟨hx, ht, hs⟩
  have t2 := textLines_emit S o T ⟨x, cpp, false⟩ ⟨hx, ht, hs⟩
  refine ⟨⟨r, ?_, ?_, hd, hi⟩, ?_, hg, he, hie⟩
  · rw [t1, h1]
  · rw [t2, h2]
  · rw [t1, t2]
    exact hm

/-- Witness for C2 (amended): the serializable parameter `model`, Julia type
text `Foo`, stripped type name `Foo`. -/
theorem C2_optional_text_wraps_required_line_witness :
    NoNewline "model"
    ∧ NoNewline (StaticType.mk true false false false false "Foo").juliaType
    ∧ (Overload.serializable = .serializable → NoNewline ((fun _ : String => "Foo") "Foo<>"))
    ∧ ((PrintInputProcessing (fun _ => "Foo") .serializable
          ⟨true, false, false, false, false, "Foo"⟩ ⟨"model", "Foo<>", false⟩
          Sink.empty).textLines.tail.dropLast).map deindent
        = (PrintInputProcessing (fun _ => "Foo") .serializable
          ⟨true, false, false, false, false, "Foo"⟩ ⟨"model", "Foo<>", true⟩
          Sink.empty).textLines :=
  ⟨by decide, by decide, fun _ => by decide,
    (C2_optional_text_wraps_required_line (fun _ => "Foo") .serializable
      ⟨true, false, false, false, false, "Foo"⟩ "model" "Foo<>"
      (by decide) (by decide) (fun _ => by decide)).2.1⟩

/-- C3: for the Armadillo (MatrixLike) overload the accessor name in the store
call is `CLISetParam` followed by a suffix fixed by the pair (element type is
`size_t`, shape): `U` is present exactly when the element type is `size_t`, the
shape part is empty for a general matrix, `Row` for a row vector and `Col` for
a column vector, and `U` comes first; the suffix is one of `""`, `"Row"`,
`"Col"`, `"U"`, `"URow"`, `"UCol"`. -/
theorem C3_arma_accessor_suffix (T : StaticType) (x cpp : String) :
    ∃ suffix : String,
      suffix = (if T.elemIsSizeT then "U" else "")
          ++ (match shapeOf T with
              | .General => ""
              | .RowVector => "Row"
              | .ColumnVector => "Col")
      ∧ suffix ∈ ["", "Row", "Col", "U", "URow", "UCol"]
      ∧ PrintInputProcessingArma T ⟨x, cpp, true⟩ Sink.empty
          = ⟨["  " ++ ("CLISetParam" ++ suffix) ++ "(\"" ++ x ++ "\", convert("
                ++ T.juliaType ++ ", " ++ x ++ "))"], ""⟩
      ∧ PrintInputProcessingArma T ⟨x, cpp, false⟩ Sink.empty
          = ⟨["  if " ++ x ++ " !== nothing",
              "    " ++ ("CLISetParam" ++ suffix) ++ "(\"" ++ x ++ "\", convert("
                ++ T.juliaType ++ ", " ++ x ++ "))",
              "  end"], ""⟩ := by
  refine ⟨uChar T ++ matTypeModifier T, ?_, ?_, ?_, ?_⟩
  · rcases T with ⟨hs, ia, u, r, c, j⟩
    cases u <;> cases r <;> cases c <;> simp [uChar, matTypeModifier, shapeOf] <;> decide
  · rcases T with ⟨hs, ia, u, r, c, j⟩
    cases u <;> cases r <;> cases c <;> simp [uChar, matTypeModifier]
  · rw [arma_required_eq T ⟨x, cpp, true⟩ Sink.empty rfl]
    simp only [Sink.empty, String.empty_append, List.nil_append, Sink.mk.injEq,
      List.cons.injEq, and_true]
    apply String.ext
    simp [String.data_append]
  · rw [arma_optional_eq T ⟨x, cpp, false⟩ Sink.empty rfl]
    simp only [Sink.empty, String.empty_append, List.nil_append, Sink.mk.injEq,
      List.cons.injEq, and_true, true_and]
    apply String.ext
    simp [String.data_append]

/-- C4: for the serializable (ObjectLike) overload the accessor name is
`CLISetParam`, then `StripType(d.cppType)` (`StripType` being any function),
then `Ptr`; the rest of the statement is `("<name>", convert(<type>, <name>))`,
written after 2 blanks when the parameter is required and after 4 when it is
optional. -/
theorem C4_serializable_accessor_name (StripType : String → String) (T : StaticType)
    (x cpp : String) :
    PrintInputProcessingSerializable StripType T ⟨x, cpp, true⟩ Sink.empty
        = ⟨["  " ++ ("CLISetParam" ++ StripType cpp ++ "Ptr")
              ++ ("(\"" ++ x ++ "\", convert(" ++ T.juliaType ++ ", " ++ x ++ "))")], ""⟩
    ∧ PrintInputProcessingSerializable StripType T ⟨x, cpp, false⟩ Sink.empty
        = ⟨["  if " ++ x ++ " !== nothing",
            "    " ++ ("CLISetParam" ++ StripType cpp ++ "Ptr")
              ++ ("(\"" ++ x ++ "\", convert(" ++ T.juliaType ++ ", " ++ x ++ "))"),
            "  end"], ""⟩ := by
  constructor
  · rw [serializable_required_eq StripType T ⟨x, cpp, true⟩ Sink.empty rfl]
    simp only [Sink.empty, String.empty_append, List.nil_append, Sink.mk.injEq,
      List.cons.injEq, and_true]
    apply String.ext
    simp [String.data_append]
  · rw [serializable_optional_eq StripType T ⟨x, cpp, false⟩ Sink.empty rfl]
    simp only [Sink.empty, String.empty_append, List.nil_append, Sink.mk.injEq,
      List.cons.injEq, and_true, true_and]
    apply String.ext
    simp [String.data_append]

/-- C5, as stated, fails: for the non-serializable parameter whose name is `a`,
a newline, `  end`, a newline, the text written with `required = true` has five
lines, two of which are `end` lines, and the text written with
`required = false` has nine lines, more than four, none of which is a guard. -/
theorem C5_newline_in_name_breaks_line_counts :
    (PrintInputProcessing (fun c => c) .plain ⟨false, false, false, false, false, "Int"⟩
        ⟨"a\n  end\n", "int", true⟩ Sink.empty).textLines.length = 5
    ∧ List.countP isEnd
        (PrintInputProcessing (fun c => c) .plain ⟨false, false, false, false, false, "Int"⟩
          ⟨"a\n  end\n", "int", true⟩ Sink.empty).textLines = 2
    ∧ (PrintInputProcessing (fun c => c) .plain ⟨false, false, false, false, false, "Int"⟩
        ⟨"a\n  end\n", "int", false⟩ Sink.empty).textLines.length = 9
    ∧ List.countP isGuardOpen
        (PrintInputProcessing (fun c => c) .plain ⟨false, false, false, false, false, "Int"⟩
          ⟨"a\n  end\n", "int", false⟩ Sink.empty).textLines = 0 := by
  decide

/-- C5, amended: for each of the three overloads and every parameter whose
name, Julia type text and (for the serializable overload) stripped type name
hold no newline character, a guard is written exactly when `required` is
false.  With `required = true` the text is one line, which is neither a guard
nor an `end` line; with `required = false` it is three lines, the first the
guard on the parameter name and the last `end`.  Guard and `end` are the same
whatever the overload, and the number of lines is between 1 and 4. -/
theorem C5_guard_iff_not_required (S : String → String) (o : Overload) (T : StaticType)
    (x cpp : String)
    (hx : NoNewline x) (ht : NoNewline T.juliaType)
    (hs : o = .serializable → NoNewline (S cpp)) :
    (∃ s : String,
        (PrintInputProcessing S o T ⟨x, cpp, true⟩ Sink.empty).textLines = [s]
        ∧ isGuardOpen s = false ∧ isEnd s = false)
    ∧ (∃ s : String,
        (PrintInputProcessing S o T ⟨x, cpp, false⟩ Sink.empty).textLines
          = ["  if " ++ x ++ " !== nothing", s, "  end"]
        ∧ isGuardOpen s = false ∧ isEnd s = false)
    ∧ isGuardOpen ("  if " ++ x ++ " !== nothing") = true
    ∧ isEnd "  end" = true
    ∧ (∀ req : Bool,
        ((∃ l ∈ (PrintInputProcessing S o T ⟨x, cpp, req⟩ Sink.empty).textLines,
            isGuardOpen l = true) ↔ req = false)
        ∧ (PrintInputProcessing S o T ⟨x, cpp, req⟩ Sink.empty).textLines.length
            = (if req then 1 else 3)
        ∧ 1 ≤ (PrintInputProcessing S o T ⟨x, cpp, req⟩ Sink.empty).textLines.length
        ∧ (PrintInputProcessing S o T ⟨x, cpp, req⟩ Sink.empty).textLines.length ≤ 4)
    ∧ (∀ (o2 : Overload) (T2 : StaticType) (cpp2 : String),
        NoNewline T2.juliaType → (o2 = .serializable → NoNewline (S cpp2)) →
        (PrintInputProcessing S o2 T2 ⟨x, cpp2, false⟩ Sink.empty).textLines.head?
            = (PrintInputProcessing S o T ⟨x, cpp, false⟩ Sink.empty).textLines.head?
        ∧ (PrintInputProcessing S o2 T2 ⟨x, cpp2, false⟩ Sink.empty).textLines.getLast?
            = (PrintInputProcessing S o T ⟨x, cpp, false⟩ Sink.empty).textLines.getLast?) := by
  obtain ⟨⟨s1, h1, k1⟩, ⟨s2, h2, k2⟩, hg, he, hreq, hsame⟩ :=
    guard_piece_iff_not_required S o T x cpp
  have t : ∀ req : Bool, (PrintInputProcessing S o T ⟨x, cpp, req⟩ Sink.empty).textLines
      = (PrintInputProcessing S o T ⟨x, cpp, req⟩ Sink.empty).lines :=
    fun req => textLines_emit S o T ⟨x, cpp, req⟩ ⟨hx, ht, hs⟩
  refine ⟨⟨s1, ?_, k1⟩, ⟨s2, ?_, k2⟩, hg, he, ?_, ?_⟩
  · rw [t true, h1]
  · rw [t false, h2]
  · intro req
    rw [t req]
    exact hreq req
  · intro o2 T2 cpp2 ht2 hs2
    rw [t false, textLines_emit S o2 T2 ⟨x, cpp2, false⟩ ⟨hx, ht2, hs2⟩]
    exact hsame o2 T2 cpp2

/-- Witness for C5 (amended): the Armadillo parameter `data` of Julia type
text `Mat`. -/
theorem C5_guard_iff_not_required_witness :
    NoNewline "data"
    ∧ NoNewline (StaticType.mk true true false false true "Mat").juliaType
    ∧ (Overload.arma = .serializable → NoNewline ((fun c : String => c) "arma::vec"))
    ∧ (∃ s : String,
        (PrintInputProcessing (fun c => c) .arma ⟨true, true, false, false, true, "Mat"⟩
          ⟨"data", "arma::vec", true⟩ Sink.empty).textLines = [s]
        ∧ isGuardOpen s = false ∧ isEnd s = false) :=
  ⟨by decide, by decide, (fun h => by cases h),
    (C5_guard_iff_not_required (fun c => c) .arma ⟨true, true, false, false, true, "Mat"⟩
      "data" "arma::vec" (by decide) (by decide) (fun h => by cases h)).1⟩

/-- C6, as stated, fails: for the single optional Armadillo parameter whose
name is `a`, a newline, `  end`, a newline, the text written has no guard
opening and four `end` lines, so already its first two lines close a block
that was never opened. -/
theorem C6_newline_in_name_unbalances_blocks :
    List.countP isGuardOpen
        (emitAll (fun c => c)
          [(.arma, ⟨true, true, false, false, false, "Mat"⟩, ⟨"a\n  end\n", "arma::mat", false⟩)]
          Sink.empty).textLines = 0
    ∧ List.countP isEnd
        (emitAll (fun c => c)
          [(.arma, ⟨true, true, false, false, false, "Mat"⟩, ⟨"a\n  end\n", "arma::mat", false⟩)]
          Sink.empty).textLines = 4
    ∧ List.countP isGuardOpen
        ((emitAll (fun c => c)
          [(.arma, ⟨true, true, false, false, false, "Mat"⟩, ⟨"a\n  end\n", "arma::mat", false⟩)]
          Sink.empty).textLines.take 2)
      < List.countP isEnd
        ((emitAll (fun c => c)
          [(.arma, ⟨true, true, false, false, false, "Mat"⟩, ⟨"a\n  end\n", "arma::mat", false⟩)]
          Sink.empty).textLines.take 2) := by
  decide

/-- C6, amended: for every list of parameters, of any overloads, whose names,
Julia type texts and (for the serializable overload) stripped type names hold
no newline character, in the text obtained by emitting them in order every
conditional block that is opened is closed exactly once: there are as many
guard openings as `end` lines, every prefix of the lines has at least as many
openings as ends and at most one more (depth at most 1).  The text is the
parameters' texts one after the other, each either a single store call or a
guard opening, a store call and an `end`, where the store call is neither a
guard opening nor an `end` line; so every line is of exactly one of the three
kinds and there is one store call per parameter. -/
theorem C6_conditional_blocks_closed_once (S : String → String)
    (ps : List (Overload × StaticType × ParamData))
    (h : ∀ p ∈ ps, NoNewline p.2.2.name ∧ NoNewline p.2.1.juliaType
      ∧ (p.1 = .serializable → NoNewline (S p.2.2.cppType))) :
    List.countP isGuardOpen (emitAll S ps Sink.empty).textLines
        = List.countP isEnd (emitAll S ps Sink.empty).textLines
    ∧ (∀ n : Nat,
        List.countP isEnd ((emitAll S ps Sink.empty).textLines.take n)
            ≤ List.countP isGuardOpen ((emitAll S ps Sink.empty).textLines.take n)
        ∧ List.countP isGuardOpen ((emitAll S ps Sink.empty).textLines.take n)
            ≤ List.countP isEnd ((emitAll S ps Sink.empty).textLines.take n) + 1)
    ∧ (emitAll S ps Sink.empty).textLines
        = (ps.map fun p =>
            (PrintInputProcessing S p.1 p.2.1 p.2.2 Sink.empty).textLines).flatten
    ∧ (∀ p ∈ ps, ∃ g s e : String,
        (isGuardOpen g = true ∧ isEnd g = false ∧ isStoreCall g = false)
        ∧ (isGuardOpen s = false ∧ isEnd s = false ∧ isStoreCall s = true)
        ∧ (isGuardOpen e = false ∧ isEnd e = true ∧ isStoreCall e = false)
        ∧ (PrintInputProcessing S p.1 p.2.1 p.2.2 Sink.empty).textLines
            = if p.2.2.required then [s] else [g, s, e])
    ∧ (∀ l ∈ (emitAll S ps Sink.empty).textLines,
        (isGuardOpen l = true ∧ isEnd l = false ∧ isStoreCall l = false)
        ∨ (isGuardOpen l = false ∧ isEnd l = true ∧ isStoreCall l = false)
        ∨ (isGuardOpen l = false ∧ isEnd l = false ∧ isStoreCall l = true))
    ∧ List.countP isStoreCall (emitAll S ps Sink.empty).textLines = ps.length := by
  have t := textLines_emitAll S ps h
  have tp : ∀ p ∈ ps, (PrintInputProcessing S p.1 p.2.1 p.2.2 Sink.empty).textLines
      = (PrintInputProcessing S p.1 p.2.1 p.2.2 Sink.empty).lines :=
    fun p hp => textLines_emit S p.1 p.2.1 p.2.2 (h p hp)
  obtain ⟨-, hb, hk, hc⟩ := emitAll_invariant S ps Sink.empty rfl balanced_nil
    (by intro l hl; cases hl)
  rw [t]
  refine ⟨hb.1, hb.2, ?_, ?_, hk, ?_⟩
  · rw [lines_emitAll S ps Sink.empty rfl]
    simp only [Sink.empty, List.nil_append]
    congr 1
    apply List.map_congr_left
    intro p hp
    exact (tp p hp).symm
  · intro p hp
    rw [tp p hp]
    exact block_shape S p.1 p.2.1 p.2.2
  · rw [hc]
    simp [Sink.empty]

/-- Witness for C6 (amended): an optional flag, a required column vector and an
optional model. -/
theorem C6_conditional_blocks_closed_once_witness :
    (∀ p ∈ [((Overload.plain, StaticType.mk false false false false false "Bool",
                ParamData.mk "verbose" "bool" false) : Overload × StaticType × ParamData),
            (.arma, ⟨true, true, false, false, true, "Mat"⟩, ⟨"data", "arma::vec", true⟩),
            (.serializable, ⟨true, false, false, false, false, "Foo"⟩,
                ⟨"model", "Foo<>", false⟩)],
        NoNewline p.2.2.name ∧ NoNewline p.2.1.juliaType
          ∧ (p.1 = .serializable → NoNewline ((fun _ : String => "Foo") p.2.2.cppType)))
    ∧ List.countP isGuardOpen
        (emitAll (fun _ => "Foo")
          [(.plain, ⟨false, false, false, false, false, "Bool"⟩, ⟨"verbose", "bool", false⟩),
            (.arma, ⟨true, true, false, false, true, "Mat"⟩, ⟨"data", "arma::vec", true⟩),
            (.serializable, ⟨true, false, false, false, false, "Foo"⟩,
                ⟨"model", "Foo<>", false⟩)] Sink.empty).textLines
      = List.countP isEnd
        (emitAll (fun _ => "Foo")
          [(.plain, ⟨false, false, false, false, false, "Bool"⟩, ⟨"verbose", "bool", false⟩),
            (.arma, ⟨true, true, false, false, true, "Mat"⟩, ⟨"data", "arma::vec", true⟩),
            (.serializable, ⟨true, false, false, false, false, "Foo"⟩,
                ⟨"model", "Foo<>", false⟩)] Sink.empty).textLines :=
  ⟨by decide,
    (C6_conditional_blocks_closed_once (fun _ => "Foo")
      [(.plain, ⟨false, false, false, false, false, "Bool"⟩, ⟨"verbose", "bool", false⟩),
        (.arma, ⟨true, true, false, false, true, "Mat"⟩, ⟨"data", "arma::vec", true⟩),
        (.serializable, ⟨true, false, false, false, false, "Foo"⟩,
            ⟨"model", "Foo<>", false⟩)] (by decide)).1⟩

/-- C7, as stated, fails: for a type that is an Armadillo type and does not
support serialization, both the non-serializable and the Armadillo overload
are enabled, so it is not true that exactly one overload is. -/
theorem C7_two_overloads_enabled_for_unserializable_arma :
    enabled .plain ⟨false, true, false, false, false, "Mat"⟩ = true
    ∧ enabled .arma ⟨false, true, false, false, false, "Mat"⟩ = true
    ∧ ¬ ∃! o : Overload,
        enabled o ⟨false, true, false, false, false, "Mat"⟩ = true := by
  refine ⟨rfl, rfl, ?_⟩
  rintro ⟨o, -, huniq⟩
  have h1 : Overload.plain = o := huniq .plain rfl
  have h2 : Overload.arma = o := huniq .arma rfl
  rw [← h1] at h2
  cases h2

/-- C7, amended: for every combination of the traits at least one overload is
enabled; the serializable overload is never enabled together with another one;
exactly one overload is enabled unless the type is an Armadillo type without
serialization support, and for such a type exactly the non-serializable and
the Armadillo overload are enabled. -/
theorem C7_enabled_overloads (T : StaticType) :
    (∃ o : Overload, enabled o T = true)
    ∧ ¬ (enabled .serializable T = true ∧ enabled .plain T = true)
    ∧ ¬ (enabled .serializable T = true ∧ enabled .arma T = true)
    ∧ ((∃! o : Overload, enabled o T = true)
        ↔ ¬ (T.isArmaType = true ∧ T.hasSerialize = false))
    ∧ ((enabled .plain T = true ∧ enabled .arma T = true)
        ↔ (T.isArmaType = true ∧ T.hasSerialize = false)) := by
  rcases T with ⟨hs, ia, u, r, c, j⟩
  cases hs <;> cases ia
  · refine ⟨⟨.plain, rfl⟩, by simp [enabled], by simp [enabled], ?_, by simp [enabled]⟩
    refine ⟨fun _ => by simp, fun _ => ⟨.plain, rfl, ?_⟩⟩
    intro o ho
    cases o <;> simp [enabled] at ho ⊢
  · refine ⟨⟨.plain, rfl⟩, by simp [enabled], by simp [enabled], ?_, by simp [enabled]⟩
    refine ⟨?_, fun h => absurd ⟨rfl, rfl⟩ h⟩
    rintro ⟨o, -, huniq⟩
    have h1 : Overload.plain = o := huniq .plain rfl
    have h2 : Overload.arma = o := huniq .arma rfl
    rw [← h1] at h2
    cases h2
  · refine ⟨⟨.serializable, rfl⟩, by simp [enabled], by simp [enabled], ?_, by simp [enabled]⟩
    refine ⟨fun _ => by simp, fun _ => ⟨.serializable, rfl, ?_⟩⟩
    intro o ho
    cases o <;> simp [enabled] at ho ⊢
  · refine ⟨⟨.arma, rfl⟩, by simp [enabled], by simp [enabled], ?_, by simp [enabled]⟩
    refine ⟨fun _ => by simp, fun _ => ⟨.arma, rfl, ?_⟩⟩
    intro o ho
    cases o <;> simp [enabled] at ho ⊢

/-- C8: the serializable (ObjectLike) overload is enabled exactly for types
that support serialization and are not Armadillo types; the Armadillo
(MatrixLike) overload is enabled exactly for Armadillo types, serializable or
not; so the serializable overload is never enabled for an Armadillo type; and
for every combination of the two traits some overload is enabled. -/
theorem C8_enabling_conditions (T : StaticType) :
    (enabled .serializable T = true ↔ (T.hasSerialize = true ∧ T.isArmaType = false))
    ∧ (enabled .arma T = true ↔ T.isArmaType = true)
    ∧ ¬ (T.isArmaType = true ∧ enabled .serializable T = true)
    ∧ (∃ o : Overload, enabled o T = true) := by
  rcases T with ⟨hs, ia, u, r, c, j⟩
  refine ⟨?_, ?_, ?_, ?_⟩
  · cases hs <;> cases ia <;> simp [enabled]
  · simp [enabled]
  · cases hs <;> cases ia <;> simp [enabled]
  · cases hs
    · exact ⟨.plain, rfl⟩
    · cases ia
      · exact ⟨.serializable, rfl⟩
      · exact ⟨.arma, rfl⟩

/-- C9, as stated, fails: a descriptor with an empty name, and a serializable
descriptor whose stripped type is empty, are emitted like any other; lines are
written, with a blank parameter name and with the accessor `CLISetParamPtr`. -/
theorem C9_blank_name_and_blank_type_are_emitted :
    (PrintInputProcessingPlain ⟨false, false, false, false, false, "Int"⟩
        ⟨"", "int", true⟩ Sink.empty).lines
      = ["  CLISetParam(\"\", convert(Int, ))"]
    ∧ (PrintInputProcessingPlain ⟨false, false, false, false, false, "Int"⟩
        ⟨"", "int", true⟩ Sink.empty).lines ≠ []
    ∧ (PrintInputProcessingSerializable (fun _ => "")
        ⟨true, false, false, false, false, "LinearRegression"⟩
        ⟨"model", "", true⟩ Sink.empty).lines
      = ["  CLISetParamPtr(\"model\", convert(LinearRegression, model))"]
    ∧ (PrintInputProcessingSerializable (fun _ => "")
        ⟨true, false, false, false, false, "LinearRegression"⟩
        ⟨"model", "", true⟩ Sink.empty).lines ≠ [] := by
  decide

/-- C9, amended: the overloads make no check of the descriptor and have no
failure result.  For a descriptor whose name is empty each of the three
overloads writes its usual text with the empty name in place, whatever the
type and the stripped type name: the store call
`CLISetParam<...>("", convert(<type>, ))` after 2 blanks when required, and when
optional the guard `  if  !== nothing`, the same call after 4 blanks and
`  end`.  And when `StripType` gives the empty text, the serializable overload
writes the accessor `CLISetParamPtr` for every name, required or optional. -/
theorem C9_no_validation_of_descriptor (S : String → String) (T : StaticType)
    (x cpp : String) :
    PrintInputProcessingPlain T ⟨"", cpp, true⟩ Sink.empty
        = ⟨["  CLISetParam(\"\", convert(" ++ T.juliaType ++ ", ))"], ""⟩
    ∧ PrintInputProcessingPlain T ⟨"", cpp, false⟩ Sink.empty
        = ⟨["  if  !== nothing",
            "    CLISetParam(\"\", convert(" ++ T.juliaType ++ ", ))",
            "  end"], ""⟩
    ∧ PrintInputProcessingArma T ⟨"", cpp, true⟩ Sink.empty
        = ⟨["  CLISetParam" ++ uChar T ++ matTypeModifier T
              ++ "(\"\", convert(" ++ T.juliaType ++ ", ))"], ""⟩
    ∧ PrintInputProcessingArma T ⟨"", cpp, false⟩ Sink.empty
        = ⟨["  if  !== nothing",
            "    CLISetParam" ++ uChar T ++ matTypeModifier T
              ++ "(\"\", convert(" ++ T.juliaType ++ ", ))",
            "  end"], ""⟩
    ∧ PrintInputProcessingSerializable S T ⟨"", cpp, true⟩ Sink.empty
        = ⟨["  CLISetParam" ++ S cpp ++ "Ptr(\"\", convert(" ++ T.juliaType ++ ", ))"], ""⟩
    ∧ PrintInputProcessingSerializable S T ⟨"", cpp, false⟩ Sink.empty
        = ⟨["  if  !== nothing",
            "    CLISetParam" ++ S cpp ++ "Ptr(\"\", convert(" ++ T.juliaType ++ ", ))",
            "  end"], ""⟩
    ∧ (S cpp = "" →
        PrintInputProcessingSerializable S T ⟨x, cpp, true⟩ Sink.empty
            = ⟨["  CLISetParamPtr(\"" ++ x ++ "\", convert(" ++ T.juliaType ++ ", " ++ x
                  ++ "))"], ""⟩
        ∧ PrintInputProcessingSerializable S T ⟨x, cpp, false⟩ Sink.empty
            = ⟨["  if " ++ x ++ " !== nothing",
                "    CLISetParamPtr(\"" ++ x ++ "\", convert(" ++ T.juliaType ++ ", " ++ x
                  ++ "))",
                "  end"], ""⟩) := by
  refine ⟨?_, ?_, ?_, ?_, ?_, ?_, ?_⟩
  · rw [plain_required_eq T ⟨"", cpp, true⟩ Sink.empty rfl]
    simp only [Sink.empty, List.nil_append, Sink.mk.injEq, List.cons.injEq, and_true]
    apply String.ext
    simp [String.data_append]
  · rw [plain_optional_eq T ⟨"", cpp, false⟩ Sink.empty rfl]
    simp only [Sink.empty, List.nil_append, Sink.mk.injEq, List.cons.injEq, and_true]
    refine ⟨by decide, ?_⟩
    apply String.ext
    simp [String.data_append]
  · rw [arma_required_eq T ⟨"", cpp, true⟩ Sink.empty rfl]
    simp only [Sink.empty, List.nil_append, Sink.mk.injEq, List.cons.injEq, and_true]
    apply String.ext
    simp [String.data_append]
  · rw [arma_optional_eq T ⟨"", cpp, false⟩ Sink.empty rfl]
    simp only [Sink.empty, List.nil_append, Sink.mk.injEq, List.cons.injEq, and_true]
    refine ⟨by decide, ?_⟩
    apply String.ext
    simp [String.data_append]
  · rw [serializable_required_eq S T ⟨"", cpp, true⟩ Sink.empty rfl]
    simp only [Sink.empty, List.nil_append, Sink.mk.injEq, List.cons.injEq, and_true]
    apply String.ext
    simp [String.data_append]
  · rw [serializable_optional_eq S T ⟨"", cpp, false⟩ Sink.empty rfl]
    simp only [Sink.empty, List.nil_append, Sink.mk.injEq, List.cons.injEq, and_true]
    refine ⟨by decide, ?_⟩
    apply String.ext
    simp [String.data_append]
  · intro h
    constructor
    · rw [serializable_required_eq S T ⟨x, cpp, true⟩ Sink.empty rfl]
      simp only [h, Sink.empty, List.nil_append, Sink.mk.injEq, List.cons.injEq, and_true]
      apply String.ext
      simp [String.data_append]
    · rw [serializable_optional_eq S T ⟨x, cpp, false⟩ Sink.empty rfl]
      simp only [h, Sink.empty, String.empty_append, List.nil_append, Sink.mk.injEq,
        List.cons.injEq, and_true, true_and]
      apply String.ext
      simp [String.data_append]

/-- Witness for C9 (amended): a `StripType` that gives the empty text for the
type name `"Foo<>"`, and the parameter `model`. -/
theorem C9_no_validation_of_descriptor_witness :
    (fun _ : String => "") "Foo<>" = ""
    ∧ PrintInputProcessingSerializable (fun _ => "")
        ⟨true, false, false, false, false, "Foo"⟩ ⟨"model", "Foo<>", true⟩ Sink.empty
        = ⟨["  CLISetParamPtr(\"" ++ "model" ++ "\", convert("
              ++ (StaticType.mk true false false false false "Foo").juliaType
              ++ ", " ++ "model" ++ "))"], ""⟩ :=
  ⟨rfl, ((C9_no_validation_of_descriptor (fun _ => "")
    ⟨true, false, false, false, false, "Foo"⟩ "model" "Foo<>").2.2.2.2.2.2 rfl).1⟩

/-- C10, as stated, fails: for the optional non-serializable parameter
`verbose` of Julia type `Bool` the lines written are not `if verbose !== nothing`,
`  Store("verbose", convert(Bool, verbose))`, `end`. -/
theorem C10_scenario_text_differs :
    (PrintInputProcessingPlain ⟨false, false, false, false, false, "Bool"⟩
        ⟨"verbose", "bool", false⟩ Sink.empty).lines
      ≠ ["if verbose !== nothing", "  Store(\"verbose\", convert(Bool, verbose))", "end"] := by
  decide

/-- C10, amended: for the optional non-serializable parameter `verbose` of
Julia type `Bool` the text written is exactly the three lines
`  if verbose !== nothing`, `    CLISetParam("verbose", convert(Bool, verbose))`,
`  end`: guard and `end` are indented by two blanks, the store call by four,
and the call name is `CLISetParam`. -/
theorem C10_scenario_verbose (hs ia u r c : Bool) (cpp : String) :
    PrintInputProcessingPlain ⟨hs, ia, u, r, c, "Bool"⟩ ⟨"verbose", cpp, false⟩ Sink.empty
      = ⟨["  if verbose !== nothing",
          "    CLISetParam(\"verbose\", convert(Bool, verbose))",
          "  end"], ""⟩
    ∧ indentOf "  if verbose !== nothing" = 2
    ∧ indentOf "    CLISetParam(\"verbose\", convert(Bool, verbose))" = 4
    ∧ indentOf "  end" = 2
    ∧ isGuardOpen "  if verbose !== nothing" = true
    ∧ isStoreCall "    CLISetParam(\"verbose\", convert(Bool, verbose))" = true
    ∧ isEnd "  end" = true := by
  refine ⟨?_, by decide, by decide, by decide, by decide, by decide, by decide⟩
  rw [plain_optional_eq _ ⟨"verbose", cpp, false⟩ Sink.empty rfl]
  simp only [Sink.empty, List.nil_append, Sink.mk.injEq, List.cons.injEq, and_true]
  refine ⟨?_, ?_⟩ <;> decide

/-- C11, as stated, fails: for the required column-vector parameter `data` of
Julia type `Mat` (element type not `size_t`) the line written is not
`  StoreCol("data", convert(Mat, data))`. -/
theorem C11_scenario_text_differs :
    (PrintInputProcessingArma ⟨true, true, false, false, true, "Mat"⟩
        ⟨"data", "arma::vec", true⟩ Sink.empty).lines
      ≠ ["  StoreCol(\"data\", convert(Mat, data))"] := by
  decide

/-- C11, amended: for the required column-vector parameter `data` of Julia type
`Mat` (element type not `size_t`) the text written is exactly the single line
`  CLISetParamCol("data", convert(Mat, data))`: two leading blanks and the
accessor name `CLISetParamCol`. -/
theorem C11_scenario_data (hs ia : Bool) (cpp : String) :
    PrintInputProcessingArma ⟨hs, ia, false, false, true, "Mat"⟩ ⟨"data", cpp, true⟩ Sink.empty
      = ⟨["  CLISetParamCol(\"data\", convert(Mat, data))"], ""⟩
    ∧ indentOf "  CLISetParamCol(\"data\", convert(Mat, data))" = 2
    ∧ isStoreCall "  CLISetParamCol(\"data\", convert(Mat, data))" = true
    ∧ shapeOf ⟨hs, ia, false, false, true, "Mat"⟩ = .ColumnVector := by
  refine ⟨?_, by decide, by decide, rfl⟩
  rw [arma_required_eq _ ⟨"data", cpp, true⟩ Sink.empty rfl]
  simp only [Sink.empty, List.nil_append, Sink.mk.injEq, List.cons.injEq, and_true]
  have hu : uChar ⟨hs, ia, false, false, true, "Mat"⟩ = "" := rfl
  have hm : matTypeModifier ⟨hs, ia, false, false, true, "Mat"⟩ = "Col" := rfl
  rw [hu, hm]
  decide

/-- C12: each overload only appends to the stream.  Whatever the stream holds
before the call, its characters after the call are the characters before
followed by the characters the overload writes to an empty stream, and the
lines finished before the call are kept as they are; on a stream of finished
lines the lines written to an empty stream are added at the end.  So emitting a
list of parameters in order gives the concatenation, in list order, of what
each parameter gives alone. -/
theorem C12_append_only_and_concatenation (S : String → String) (o : Overload)
    (T : StaticType) (d : ParamData) (s : Sink) (ls : List String)
    (ps : List (Overload × StaticType × ParamData)) :
    (PrintInputProcessing S o T d s).render
        = s.render ++ (PrintInputProcessing S o T d Sink.empty).render
    ∧ s.lines <+: (PrintInputProcessing S o T d s).lines
    ∧ PrintInputProcessing S o T d ⟨ls, ""⟩
        = ⟨ls ++ (PrintInputProcessing S o T d Sink.empty).lines, ""⟩
    ∧ (emitAll S ps s).render
        = s.render ++ String.join
            (ps.map fun p => (PrintInputProcessing S p.1 p.2.1 p.2.2 Sink.empty).render)
    ∧ emitAll S ps Sink.empty
        = ⟨(ps.map fun p =>
            (PrintInputProcessing S p.1 p.2.1 p.2.2 Sink.empty).lines).flatten, ""⟩ := by
  refine ⟨render_emit S o T d s, lines_prefix_emit S o T d s,
    emit_appends S o T d ⟨ls, ""⟩ rfl, render_emitAll S ps s, ?_⟩
  rw [lines_emitAll S ps Sink.empty rfl]
  simp [Sink.empty]

/-- C13, as stated, fails: the name `a`, newline, `b` holds no parenthesis and
no double quote (nor do the type texts), yet the line of the text that carries
the store call, `  CLISetParam("a`, has one opening parenthesis, no closing one
and one double quote. -/
theorem C13_newline_in_name_unbalances_store_call :
    NoParenQuote "a\nb"
    ∧ NoParenQuote (StaticType.mk false false false false false "Int").juliaType
    ∧ NoParenQuote ((fun c : String => c) "int")
    ∧ (PrintInputProcessing (fun c => c) .plain ⟨false, false, false, false, false, "Int"⟩
        ⟨"a\nb", "int", true⟩ Sink.empty).textLines
      = ["  CLISetParam(\"a", "b\", convert(Int, a", "b))"]
    ∧ isStoreCall "  CLISetParam(\"a" = true
    ∧ ("  CLISetParam(\"a").data.count '(' = 1
    ∧ ("  CLISetParam(\"a").data.count ')' = 0
    ∧ ("  CLISetParam(\"a").data.count '"' = 1
    ∧ parensNested "  CLISetParam(\"a" = false := by
  decide

/-- C13, amended: when the parameter name, the Julia type text and the stripped
type name hold no parenthesis, no double quote and no newline character, the
store-call line of the text written by each overload (required or optional)
has two opening and two closing parentheses, properly nested, the call being
closed at the end of the line, and exactly two double quotes with the
parameter name between them; the unquoted text passed to `convert` after the
type is the parameter name as well. -/
theorem C13_store_call_parentheses_and_quotes (S : String → String) (o : Overload)
    (T : StaticType) (x cpp : String) (req : Bool)
    (hx : NoParenQuote x) (ht : NoParenQuote T.juliaType) (hs : NoParenQuote (S cpp))
    (nx : NoNewline x) (nt : NoNewline T.juliaType) (ns : NoNewline (S cpp)) :
    List.countP isStoreCall (PrintInputProcessing S o T ⟨x, cpp, req⟩ Sink.empty).textLines = 1
    ∧ ∀ l ∈ (PrintInputProcessing S o T ⟨x, cpp, req⟩ Sink.empty).textLines,
        isStoreCall l = true →
          l.data.count '(' = 2
          ∧ l.data.count ')' = 2
          ∧ parensNested l = true
          ∧ "))".data <:+ l.data
          ∧ l.data.count '"' = 2
          ∧ ∃ pre : String, '"' ∉ pre.data
              ∧ l = pre ++ "\"" ++ x ++ "\"" ++ ", convert(" ++ T.juliaType ++ ", " ++ x
                  ++ "))" := by
  rw [textLines_emit S o T ⟨x, cpp, req⟩ ⟨nx, nt, fun _ => ns⟩]
  exact store_piece_parentheses_and_quotes S o T x cpp req hx ht hs

/-- Witness for C13 (amended): the optional serializable parameter `model`,
Julia type text `Foo`, stripped type name `Foo`. -/
theorem C13_store_call_parentheses_and_quotes_witness :
    NoParenQuote "model"
    ∧ NoParenQuote (StaticType.mk true false false false false "Foo").juliaType
    ∧ NoParenQuote ((fun _ : String => "Foo") "Foo<>")
    ∧ NoNewline "model"
    ∧ NoNewline (StaticType.mk true false false false false "Foo").juliaType
    ∧ NoNewline ((fun _ : String => "Foo") "Foo<>")
    ∧ List.countP isStoreCall
        (PrintInputProcessing (fun _ => "Foo") .serializable
          ⟨true, false, false, false, false, "Foo"⟩ ⟨"model", "Foo<>", false⟩
          Sink.empty).textLines = 1
    ∧ ∀ l ∈ (PrintInputProcessing (fun _ => "Foo") .serializable
          ⟨true, false, false, false, false, "Foo"⟩ ⟨"model", "Foo<>", false⟩
          Sink.empty).textLines,
        isStoreCall l = true →
          l.data.count '(' = 2
          ∧ l.data.count ')' = 2
          ∧ parensNested l = true
          ∧ "))".data <:+ l.data
          ∧ l.data.count '"' = 2
          ∧ ∃ pre : String, '"' ∉ pre.data
              ∧ l = pre ++ "\"" ++ "model" ++ "\"" ++ ", convert("
                  ++ (StaticType.mk true false false false false "Foo").juliaType
                  ++ ", " ++ "model" ++ "))" :=
  ⟨by decide, by decide, by decide, by decide, by decide, by decide,
    C13_store_call_parentheses_and_quotes (fun _ => "Foo") .serializable
      ⟨true, false, false, false, false, "Foo"⟩ "model" "Foo<>" false
      (by decide) (by decide) (by decide) (by decide) (by decide) (by decide)⟩

/-- C14: the accessor of the Armadillo (MatrixLike) overload is injective on
classifications.  Two types get the same accessor name exactly when they agree
on whether the element type is `size_t` and on the shape; the six
classifications give the six pairwise distinct names `CLISetParam`,
`CLISetParamRow`, `CLISetParamCol`, `CLISetParamU`, `CLISetParamURow`,
`CLISetParamUCol`; and for one parameter and one Julia type text, two types
give the same output exactly when their classifications are the same. -/
theorem C14_arma_accessor_injective (T U : StaticType) (x cpp : String) (req : Bool) :
    (("CLISetParam" ++ uChar T ++ matTypeModifier T
        = "CLISetParam" ++ uChar U ++ matTypeModifier U)
      ↔ (T.elemIsSizeT = U.elemIsSizeT ∧ shapeOf T = shapeOf U))
    ∧ ([(false, false, false), (false, true, false), (false, false, true),
        (true, false, false), (true, true, false), (true, false, true)].map
          fun k : Bool × Bool × Bool =>
            "CLISetParam" ++ uChar ⟨T.hasSerialize, T.isArmaType, k.1, k.2.1, k.2.2, T.juliaType⟩
              ++ matTypeModifier ⟨T.hasSerialize, T.isArmaType, k.1, k.2.1, k.2.2, T.juliaType⟩)
        = ["CLISetParam", "CLISetParamRow", "CLISetParamCol",
            "CLISetParamU", "CLISetParamURow", "CLISetParamUCol"]
    ∧ ["CLISetParam", "CLISetParamRow", "CLISetParamCol",
        "CLISetParamU", "CLISetParamURow", "CLISetParamUCol"].Nodup
    ∧ ((PrintInputProcessingArma T ⟨x, cpp, req⟩ Sink.empty
          = PrintInputProcessingArma
              ⟨U.hasSerialize, U.isArmaType, U.elemIsSizeT, U.is_row, U.is_col, T.juliaType⟩
              ⟨x, cpp, req⟩ Sink.empty)
        ↔ (T.elemIsSizeT = U.elemIsSizeT ∧ shapeOf T = shapeOf U)) := by
  refine ⟨?_, ?_, by decide, ?_⟩
  · rw [← suffix_eq_iff T U]
    constructor
    · intro h
      have h2 : "CLISetParam" ++ (uChar T ++ matTypeModifier T) ++ ""
          = "CLISetParam" ++ (uChar U ++ matTypeModifier U) ++ "" := by
        simpa [String.append_assoc] using h
      exact middle_cancel _ _ _ _ h2
    · intro h
      rw [String.append_assoc, String.append_assoc, h]
  · simp [uChar, matTypeModifier]
  · exact (arma_emit_eq_iff T
      ⟨U.hasSerialize, U.isArmaType, U.elemIsSizeT, U.is_row, U.is_col, T.juliaType⟩
      x cpp req rfl).trans ((suffix_eq_iff T _).trans (by simp [shapeOf]))

/-- C15: for every name, required flag and Julia type text the non-serializable
(Plain) overload and the Armadillo overload applied to a general matrix whose
element type is not `size_t` (not a row, not a column: empty suffix) write the
same lines, from any stream; in particular for a type on which both overloads
are enabled (an Armadillo type without serialization support). -/
theorem C15_plain_equals_arma_with_empty_suffix (S : String → String) (hs ia : Bool)
    (j : String) (d : ParamData) (out : Sink) :
    PrintInputProcessingPlain ⟨hs, ia, false, false, false, j⟩ d out
        = PrintInputProcessingArma ⟨hs, ia, false, false, false, j⟩ d out
    ∧ uChar ⟨hs, ia, false, false, false, j⟩ ++ matTypeModifier ⟨hs, ia, false, false, false, j⟩
        = ""
    ∧ enabled .plain ⟨false, true, false, false, false, j⟩ = true
    ∧ enabled .arma ⟨false, true, false, false, false, j⟩ = true
    ∧ PrintInputProcessing S .plain ⟨false, true, false, false, false, j⟩ d out
        = PrintInputProcessing S .arma ⟨false, true, false, false, false, j⟩ d out := by
  have key : ∀ a b : Bool,
      PrintInputProcessingPlain ⟨a, b, false, false, false, j⟩ d out
        = PrintInputProcessingArma ⟨a, b, false, false, false, j⟩ d out := by
    intro a b
    have hu : uChar ⟨a, b, false, false, false, j⟩ = "" := rfl
    have hm : matTypeModifier ⟨a, b, false, false, false, j⟩ = "" := rfl
    rcases d with ⟨x, cpp, req⟩
    cases req
    · rw [plain_optional_eq _ _ out rfl, arma_optional_eq _ _ out rfl, hu, hm]
      simp only [Sink.mk.injEq, List.append_cancel_left_eq, List.cons.injEq, and_true,
        true_and]
      apply String.ext
      simp [String.data_append]
    · rw [plain_required_eq _ _ out rfl, arma_required_eq _ _ out rfl, hu, hm]
      simp only [Sink.mk.injEq, List.append_cancel_left_eq, List.cons.injEq, and_true]
      apply String.ext
      simp [String.data_append]
  exact ⟨key hs ia, rfl, rfl, rfl, key false true⟩

/-- C16: the text written by the non-serializable (Plain) and the Armadillo
(MatrixLike) overload for a given static type depends on the descriptor only
through its name and its required flag: two descriptors that agree on both
give the same stream, whatever their `cppType`.  The serializable (ObjectLike)
overload uses `cppType` only through `StripType`: two descriptors that agree on
name, required flag and `StripType(cppType)` give the same stream. -/
theorem C16_output_depends_on_name_and_required (S : String → String) (T : StaticType)
    (d e : ParamData) (out : Sink) (hn : d.name = e.name) (hr : d.required = e.required) :
    PrintInputProcessingPlain T d out = PrintInputProcessingPlain T e out
    ∧ PrintInputProcessingArma T d out = PrintInputProcessingArma T e out
    ∧ (S d.cppType = S e.cppType →
        PrintInputProcessingSerializable S T d out
          = PrintInputProcessingSerializable S T e out) := by
  rcases d with ⟨x, cpp, req⟩
  rcases e with ⟨y, cpp2, req2⟩
  simp only at hn hr
  subst hn
  subst hr
  refine ⟨?_, ?_, ?_⟩
  · cases req
    · rw [plain_optional_eq T _ out rfl, plain_optional_eq T ⟨x, cpp2, false⟩ out rfl]
    · rw [plain_required_eq T _ out rfl, plain_required_eq T ⟨x, cpp2, true⟩ out rfl]
  · cases req
    · rw [arma_optional_eq T _ out rfl, arma_optional_eq T ⟨x, cpp2, false⟩ out rfl]
    · rw [arma_required_eq T _ out rfl, arma_required_eq T ⟨x, cpp2, true⟩ out rfl]
  · intro hS
    simp only at hS
    cases req
    · rw [serializable_optional_eq S T _ out rfl,
        serializable_optional_eq S T ⟨x, cpp2, false⟩ out rfl]
      simp only [hS]
    · rw [serializable_required_eq S T _ out rfl,
        serializable_required_eq S T ⟨x, cpp2, true⟩ out rfl]
      simp only [hS]

/-- Witness for C16: two descriptors named `model` with different `cppType`
texts that a `StripType` sends to the same text. -/
theorem C16_output_depends_on_name_and_required_witness :
    (ParamData.mk "model" "Foo<>" true).name = (ParamData.mk "model" "Foo<int>" true).name
    ∧ (ParamData.mk "model" "Foo<>" true).required
        = (ParamData.mk "model" "Foo<int>" true).required
    ∧ PrintInputProcessingPlain ⟨false, false, false, false, false, "Foo"⟩
          ⟨"model", "Foo<>", true⟩ Sink.empty
        = PrintInputProcessingPlain ⟨false, false, false, false, false, "Foo"⟩
          ⟨"model", "Foo<int>", true⟩ Sink.empty
    ∧ PrintInputProcessingSerializable (fun _ => "Foo")
          ⟨false, false, false, false, false, "Foo"⟩ ⟨"model", "Foo<>", true⟩ Sink.empty
        = PrintInputProcessingSerializable (fun _ => "Foo")
          ⟨false, false, false, false, false, "Foo"⟩ ⟨"model", "Foo<int>", true⟩ Sink.empty :=
  ⟨rfl, rfl,
    (C16_output_depends_on_name_and_required (fun _ => "Foo")
      ⟨false, false, false, false, false, "Foo"⟩ ⟨"model", "Foo<>", true⟩
      ⟨"model", "Foo<int>", true⟩ Sink.empty rfl rfl).1,
    (C16_output_depends_on_name_and_required (fun _ => "Foo")
      ⟨false, false, false, false, false, "Foo"⟩ ⟨"model", "Foo<>", true⟩
      ⟨"model", "Foo<int>", true⟩ Sink.empty rfl rfl).2.2 rfl⟩

end mlpack.bindings.julia
